import Mathlib

/-!
Verification of the Parker screenshot tool (`parker.py`) against its
specification.  The Python source is shallowly embedded: pure helpers become
Lean functions on `List Char` / `String`, the Playwright-driven orchestration
becomes explicit state passing over an event trace, with a browser oracle
deciding which page operations succeed and which raise.  Python's per-process
randomized `hash` builtin is a parameter (`pyh`) of the embedding.
-/

/- ================================================================
   Section 1: string / list utilities mirroring Python primitives
   ================================================================ -/

/-- Characters allowed by the sanitizer's character class `[a-zA-Z0-9\-_]`. -/
def isAllowedChar (c : Char) : Bool :=
  c.isAlpha || c.isDigit || c == '-' || c == '_'

/-- `re.sub(r"[^a-zA-Z0-9\-_]", "-", s)`: replace every disallowed char by a dash. -/
def substBad (l : List Char) : List Char :=
  l.map (fun c => if isAllowedChar c then c else '-')

/-- `re.sub(r"-+", "-", s)`: collapse every maximal run of dashes to one dash. -/
def collapseDashes : List Char → List Char
  | [] => []
  | c :: rest =>
    let r := collapseDashes rest
    if c == '-' then
      match r with
      | '-' :: _ => r
      | _ => c :: r
    else c :: r

/-- Drop trailing characters satisfying `p` (right half of Python `str.strip`). -/
def dropTrailingWhile (p : Char → Bool) : List Char → List Char
  | [] => []
  | c :: rest =>
    match dropTrailingWhile p rest with
    | [] => if p c then [] else [c]
    | r => c :: r

/-- Python `str.strip(ch)` for a single-character strip set. -/
def stripChar (ch : Char) (l : List Char) : List Char :=
  dropTrailingWhile (· == ch) (l.dropWhile (· == ch))

/-- Python `str.strip()` (whitespace strip). -/
def stripWs (l : List Char) : List Char :=
  dropTrailingWhile (·.isWhitespace) (l.dropWhile (·.isWhitespace))

/-- Python falsy-aware `a or b` on strings (empty string is falsy). -/
def pyOrList (a b : List Char) : List Char :=
  if a = [] then b else a

/-- Does `needle` occur at the head of `hay`? -/
def leadMatch : List Char → List Char → Bool
  | [], _ => true
  | _ :: _, [] => false
  | c :: cs, d :: ds => c == d && leadMatch cs ds

/-- Python `needle in hay` (contiguous substring test). -/
def containsSeq (needle : List Char) : List Char → Bool
  | [] => leadMatch needle []
  | c :: rest => leadMatch needle (c :: rest) || containsSeq needle rest

/-- Python `str.lower()` (ASCII-relevant part). -/
def lowerChars (s : String) : String :=
  String.mk (s.data.map Char.toLower)

/-- Python `str.upper()` (ASCII-relevant part). -/
def upperChars (s : String) : String :=
  String.mk (s.data.map Char.toUpper)

/-- Decimal digit character for `d < 10`. -/
def digitChar (d : Nat) : Char := Char.ofNat (48 + d)

/-- Fuel-driven accumulator loop producing the decimal digits of `n`. -/
def natStrAux : Nat → Nat → List Char → List Char
  | 0, _, acc => acc
  | fuel + 1, n, acc =>
    if n = 0 then acc else natStrAux fuel (n / 10) (digitChar (n % 10) :: acc)

/-- Decimal representation of a natural number (Python `str` on a non-negative int). -/
def natStr (n : Nat) : List Char :=
  if n = 0 then ['0'] else natStrAux (n + 1) n []

/-- Python `str(i)` for an int: optional minus sign then decimal digits. -/
def pyIntStr (i : Int) : List Char :=
  if i < 0 then '-' :: natStr (-i).toNat else natStr i.toNat

/-- Python `s[-n:]`: the last `min n (length s)` characters. -/
def pyTakeLast (n : Nat) (l : List Char) : List Char :=
  l.drop (l.length - n)

/-- Python single-character `str.split(sep)`, keeping empty fields. -/
def splitOnChar (sep : Char) : List Char → List (List Char)
  | [] => [[]]
  | c :: rest =>
    let r := splitOnChar sep rest
    if c == sep then [] :: r
    else
      match r with
      | [] => [[c]]
      | g :: gs => (c :: g) :: gs

/-- Python `int(s)` on a trimmed decimal literal: optional sign, then digits. -/
def pyParseInt (l : List Char) : Option Int :=
  let core : List Char → Option Int := fun ds =>
    if ds = [] then none
    else if ds.all Char.isDigit then
      some (Int.ofNat (ds.foldl (fun acc c => acc * 10 + (c.toNat - 48)) 0))
    else none
  match l with
  | '-' :: rest => (core rest).map (fun n => -n)
  | '+' :: rest => core rest
  | _ => core l

/- ================================================================
   Section 2: urlparse model (relevant fields of `urllib.parse.urlparse`)
   ================================================================ -/

/-- The URL components the program reads: `netloc`, `path`, `query`. -/
structure UrlParts where
  scheme : List Char
  netloc : List Char
  path : List Char
  query : List Char
  fragment : List Char
  deriving DecidableEq, Repr

/-- Characters allowed in a URL scheme after the leading letter. -/
def isSchemeChar (c : Char) : Bool :=
  c.isAlphanum || c == '+' || c == '-' || c == '.'

/-- Split at the first `:` returning (before, after), if any. -/
def splitFirst (sep : Char) : List Char → Option (List Char × List Char)
  | [] => none
  | c :: rest =>
    if c == sep then some ([], rest)
    else
      match splitFirst sep rest with
      | some (a, b) => some (c :: a, b)
      | none => none

/-- Take characters up to the first `/`, `?` or `#` (netloc scan). -/
def takeNetloc : List Char → List Char × List Char
  | [] => ([], [])
  | c :: rest =>
    if c == '/' || c == '?' || c == '#' then ([], c :: rest)
    else
      let (a, b) := takeNetloc rest
      (c :: a, b)

/-- Model of `urllib.parse.urlparse` restricted to the fields the tool uses:
scheme (lowercased, validated), netloc after `//`, fragment split at the first
`#`, query split at the first `?`. -/
def urlparse (url : List Char) : UrlParts :=
  let (scheme, rest) :=
    match splitFirst ':' url with
    | some (a, b) =>
      match a with
      | c :: _ => if c.isAlpha && a.all isSchemeChar then (a.map Char.toLower, b) else ([], url)
      | [] => ([], url)
    | none => ([], url)
  let (netloc, rest) :=
    match rest with
    | '/' :: '/' :: r => takeNetloc r
    | _ => ([], rest)
  let (rest, fragment) :=
    match splitFirst '#' rest with
    | some (a, b) => (a, b)
    | none => (rest, [])
  let (path, query) :=
    match splitFirst '?' rest with
    | some (a, b) => (a, b)
    | none => (rest, [])
  { scheme := scheme, netloc := netloc, path := path, query := query, fragment := fragment }

/- ================================================================
   Section 3: `sanitize_filename` (parker.py lines 33-46)
   ================================================================ -/

/-- Final three sanitation passes: character-class substitution, dash
collapsing, dash stripping (lines 44-46). -/
def sanitize_core (l : List Char) : List Char :=
  stripChar '-' (collapseDashes (substBad l))

/-- `host = parsed.netloc.replace(":", "-")` (line 36). -/
def hostPart (u : List Char) : List Char :=
  (urlparse u).netloc.map (fun c => if c == ':' then '-' else c)

/-- `path = parsed.path.strip("/").replace("/", "-") or "index"` (line 37). -/
def pathPart (u : List Char) : List Char :=
  pyOrList ((stripChar '/' (urlparse u).path).map (fun c => if c == '/' then '-' else c))
    "index".data

/-- The 6-character query-hash suffix `str(hash(parsed.query))[-6:]` (line 40). -/
def querySuffix (h : Int) : List Char :=
  pyTakeLast 6 (pyIntStr h)

/-- The path component after query disambiguation (lines 37-41): when a query
string is present the hash-derived suffix is appended. -/
def sanitize_path (pyh : List Char → Int) (url : String) : List Char :=
  match (urlparse url.data).query with
  | [] => pathPart url.data
  | q => pathPart url.data ++ '-' :: querySuffix (pyh q)

/-- The raw combined name fed to the final sanitation passes (line 43):
host-dash-path, with the host-only special case when the path is "index". -/
def sanitize_input (pyh : List Char → Int) (url : String) : List Char :=
  if sanitize_path pyh url ≠ "index".data
  then hostPart url.data ++ '-' :: sanitize_path pyh url
  else hostPart url.data

/-- `sanitize_filename` (lines 33-46).  `pyh` stands for Python's builtin
(per-process randomized) `hash` on the query string. -/
def sanitize_filename (pyh : List Char → Int) (url : String) : String :=
  String.mk (sanitize_core (sanitize_input pyh url))

/-- No two consecutive dashes anywhere in the list. -/
def noDoubleDash : List Char → Bool
  | a :: b :: rest => !(a == '-' && b == '-') && noDoubleDash (b :: rest)
  | _ => true

/-- Claim C5 exactly as stated: for every URL with a non-empty query string,
the sanitized base name is the sanitized host-and-path form with the appended
hash-derived suffix, and that suffix is exactly 6 characters, all digits. -/
def claimC5Prop (pyh : List Char → Int) (url : String) : Prop :=
  (urlparse url.data).query ≠ [] →
    ((querySuffix (pyh (urlparse url.data).query)).length = 6 ∧
     (querySuffix (pyh (urlparse url.data).query)).all Char.isDigit = true ∧
     (sanitize_filename pyh url).data =
       sanitize_core (hostPart url.data ++ '-' ::
         (pathPart url.data ++ '-' :: querySuffix (pyh (urlparse url.data).query))))

/- ================================================================
   Section 4: configuration data model (dict-shaped YAML values)
   ================================================================ -/

/-- Dynamic values appearing in auth step dicts. -/
inductive SVal
  | str (s : String)
  | int (n : Int)
  deriving DecidableEq, Repr

/-- An auth step: a YAML mapping, looked up by key (`"fill" in step` etc.). -/
def StepDict := List (String × SVal)
  deriving DecidableEq

/-- A POST body: either a raw string or a structured (dict) value. -/
inductive PostData
  | pstr (s : String)
  | pdict (kvs : List (String × String))
  deriving DecidableEq, Repr

/-- A dict-shaped URL entry (parker.py lines 118-122 and 231-236). -/
structure EntryDict where
  url : Option String := none
  name : Option String := none
  description : Option String := none
  auth : Bool := false
  devices : Option (List String) := none
  method : Option String := none
  data : Option PostData := none
  headers : Option (List (String × String)) := none
  wait_for : Option String := none
  wait : Option Int := none
  deriving DecidableEq, Repr

/-- A configured URL entry: plain string or mapping (line 225). -/
inductive Entry
  | plain (url : String)
  | obj (d : EntryDict)
  deriving DecidableEq, Repr

/-- The top-level `auth` block: `auth.get("url")`, `auth.get("steps", [])`. -/
structure AuthConfig where
  url : Option String := none
  steps : List StepDict := []
  deriving DecidableEq

/-- A loaded config: `config.get("urls", [])`, `config.get("auth")`. -/
structure Config where
  urls : List Entry := []
  auth : Option AuthConfig := none
  deriving DecidableEq

/-- Python string truthiness on an optional string (None and "" are falsy). -/
def strTruthy : Option String → Option String
  | some s => if s == "" then none else some s
  | none => none

/-- Python `a or b` where `a` is an optional/possibly-empty string. -/
def pyOrStr (a : Option String) (b : String) : String :=
  match a with
  | some s => if s == "" then b else s
  | none => b

/-- Python `a or b` on optional strings. -/
def pyOrOptStr (a b : Option String) : Option String :=
  if (strTruthy a).isSome then a else b

/-- Entry field accessors mirroring lines 118-122 (dict accessors with
defaults, plain strings treated as GET/no-frills URLs) and 225-236. -/
def entryUrl : Entry → Option String
  | .plain s => some s
  | .obj d => d.url

def entryName : Entry → Option String
  | .plain _ => none
  | .obj d => d.name

def entryDescription : Entry → Option String
  | .plain _ => none
  | .obj d => d.description

def entryAuth : Entry → Bool
  | .plain _ => false
  | .obj d => d.auth

def entryDevices : Entry → Option (List String)
  | .plain _ => none
  | .obj d => d.devices

def entryMethod : Entry → String
  | .plain _ => "GET"
  | .obj d => upperChars (d.method.getD "GET")

def entryData : Entry → Option PostData
  | .plain _ => none
  | .obj d => d.data

def entryHeaders : Entry → Option (List (String × String))
  | .plain _ => none
  | .obj d => d.headers

def entryWaitFor : Entry → Option String
  | .plain _ => none
  | .obj d => d.wait_for

def entryWaitMs : Entry → Option Int
  | .plain _ => none
  | .obj d => d.wait

/-- Truthiness of `post_data` (line 126: `if method == "POST" and post_data`). -/
def pdTruthy : Option PostData → Bool
  | none => false
  | some (.pstr s) => !(s == "")
  | some (.pdict kvs) => !(kvs.isEmpty)

/- ================================================================
   Section 5: browser capability interface, events, oracle
   ================================================================ -/

/-- Minimal JSON encoding of a flat string dict, for `json.dumps(post_data)`. -/
def jsonEscape (s : String) : String :=
  String.mk (s.data.foldr (fun c acc =>
    if c == '"' || c == '\\' then '\\' :: c :: acc else c :: acc) [])

/-- `json.dumps` on a flat string-to-string dict. -/
def jsonDumps (kvs : List (String × String)) : String :=
  "\x7b" ++
    String.intercalate ", "
      (kvs.map (fun kv => "\"" ++ jsonEscape kv.1 ++ "\": \"" ++ jsonEscape kv.2 ++ "\"")) ++
  "\x7d"

/-- `{**(headers or {}), "Content-Type": "application/json"}` (line 131). -/
def mergeContentType (h : List (String × String)) : List (String × String) :=
  h.filter (fun kv => !(kv.1 == "Content-Type")) ++ [("Content-Type", "application/json")]

/-- The request override installed by `handle_route` (lines 127-132). -/
structure RouteOverride where
  method : String
  post_data : String
  headers : Option (List (String × String))
  deriving DecidableEq, Repr

/-- Which override the route handler applies for a given body and headers. -/
def routeOverride (pd : PostData) (headers : Option (List (String × String))) : RouteOverride :=
  match pd with
  | .pdict kvs =>
    { method := "POST", post_data := jsonDumps kvs,
      headers := some (mergeContentType (headers.getD [])) }
  | .pstr s => { method := "POST", post_data := s, headers := headers }

/-- Browser page operations (the consumed Playwright capability interface). -/
inductive BOp
  | goto (url : SVal)
  | fill (sel value : SVal)
  | click (sel : SVal)
  | waitMsOp (ms : SVal)
  | waitForOp (sel : SVal) (timeoutMs : Option Nat)
  | typeOp (sel value : SVal)
  | press (key : SVal)
  | route (url : String) (ovr : RouteOverride)
  | unroute (url : String)
  | titleOp
  | evalMeta
  | screenshot (path : String) (fullPage : Bool)
  | fileHash (path : String)
  deriving DecidableEq, Repr

/-- Observable run events: attempted page operations (with outcome),
context lifecycle, and capture attempts. -/
inductive Ev
  | op (o : BOp) (ok : Bool)
  | newContext (device : String)
  | closeContext (device : String)
  | captureAttempt (url : String) (device : String) (filename : String)
  deriving DecidableEq, Repr

/-- The environment: given the history and a page operation, either the
operation's return value or the message of the exception it raises. -/
def Oracle := List Ev → BOp → Except String String

/-- Run one fallible page operation, recording it in the trace. -/
def runOpE (ω : Oracle) (tr : List Ev) (op : BOp) : Except String String × List Ev :=
  match ω tr op with
  | .ok v => (.ok v, tr ++ [.op op true])
  | .error e => (.error e, tr ++ [.op op false])

/- ================================================================
   Section 6: authentication runner (perform_auth, lines 63-112)
   ================================================================ -/

/-- `step.get("value", "")`. -/
def stepValue (st : StepDict) : SVal :=
  (List.lookup "value" st).getD (.str "")

/-- The single browser operation a step performs, if its key is recognized
(lines 77-106, keys tested in source order; unrecognized steps do nothing). -/
def stepOp (st : StepDict) : Option BOp :=
  match List.lookup "fill" st with
  | some sel => some (.fill sel (stepValue st))
  | none =>
  match List.lookup "click" st with
  | some sel => some (.click sel)
  | none =>
  match List.lookup "wait" st with
  | some ms => some (.waitMsOp ms)
  | none =>
  match List.lookup "wait_for" st with
  | some sel => some (.waitForOp sel none)
  | none =>
  match List.lookup "type" st with
  | some sel => some (.typeOp sel (stepValue st))
  | none =>
  match List.lookup "press" st with
  | some k => some (.press k)
  | none =>
  match List.lookup "goto" st with
  | some u => some (.goto u)
  | none => none

/-- The step loop (lines 75-109): each step's operation runs inside
`try/except`; the first exception returns `False` immediately. -/
def authSteps (ω : Oracle) : List StepDict → List Ev → Bool × List Ev
  | [], tr => (true, tr)
  | st :: rest, tr =>
    match stepOp st with
    | none => authSteps ω rest tr
    | some o =>
      match runOpE ω tr o with
      | (.ok _, tr1) => authSteps ω rest tr1
      | (.error _, tr1) => (false, tr1)

/-- `perform_auth` (lines 63-112).  The initial `page.goto(auth_url)` at line
73 is outside the try block: an exception there propagates (left value). -/
def perform_auth (ω : Oracle) (ac : AuthConfig) (tr : List Ev) :
    Except String Bool × List Ev :=
  match strTruthy ac.url with
  | none => (.ok false, tr)
  | some u =>
    match runOpE ω tr (.goto (.str u)) with
    | (.error e, tr1) => (.error e, tr1)
    | (.ok _, tr1) =>
      let (b, tr2) := authSteps ω ac.steps tr1
      (.ok b, tr2)

/-- The operations the recognized steps of a list would perform. -/
def stepOps (steps : List StepDict) : List BOp :=
  steps.filterMap stepOp

/-- Trace state right after a successful navigation to the auth URL `u`
within a run of `capture_screenshots`. -/
def authStartTrace (u : String) : List Ev :=
  [.newContext "default", .op (.goto (.str u)) true]

/- ================================================================
   Section 7: capture engine (capture_single, lines 115-179)
   ================================================================ -/

/-- One per-capture result dict (returned by `capture_single`). -/
structure CapRes where
  status : String
  title : Option String := none
  page_description : Option String := none
  hash : Option String := none
  error : Option String := none
  deriving DecidableEq, Repr

/-- Error classification (lines 171-179). -/
def classifyError (e : String) : CapRes :=
  if containsSeq "timeout".data (lowerChars e).data then
    { status := "timeout", error := some e }
  else if containsSeq "net::".data (lowerChars e).data then
    { status := "network_error", error := some e }
  else
    { status := "error", error := some e }

/-- Screenshot, hash and result construction (lines 161-169). -/
def captureFinish (ω : Oracle) (filepath : String) (full_page : Bool)
    (title desc : String) (tr : List Ev) : CapRes × List Ev :=
  match runOpE ω tr (.screenshot filepath full_page) with
  | (.error e, tr1) => (classifyError e, tr1)
  | (.ok _, tr1) =>
    match runOpE ω tr1 (.fileHash filepath) with
    | (.error e, tr2) => (classifyError e, tr2)
    | (.ok hv, tr2) =>
      ({ status := "ok", title := some title,
         page_description := some (if desc == "" then "" else String.mk (stripWs desc.data)),
         hash := some hv }, tr2)

/-- Title and meta-description extraction (lines 149-159). -/
def captureMetaStage (ω : Oracle) (filepath : String) (full_page : Bool)
    (tr : List Ev) : CapRes × List Ev :=
  match runOpE ω tr .titleOp with
  | (.error e, tr1) => (classifyError e, tr1)
  | (.ok t, tr1) =>
    match runOpE ω tr1 .evalMeta with
    | (.error e, tr2) => (classifyError e, tr2)
    | (.ok m, tr2) => captureFinish ω filepath full_page t m tr2

/-- Extra wait time (lines 144-147): per-URL value wins if not None. -/
def captureWaitStage (ω : Oracle) (filepath : String) (wait_ms : Option Int)
    (global_wait : Int) (full_page : Bool) (tr : List Ev) : CapRes × List Ev :=
  let wait_time := wait_ms.getD global_wait
  if wait_time > 0 then
    match runOpE ω tr (.waitMsOp (.int wait_time)) with
    | (.error e, tr1) => (classifyError e, tr1)
    | (.ok _, tr1) => captureMetaStage ω filepath full_page tr1
  else captureMetaStage ω filepath full_page tr

/-- Selector wait (lines 139-142): per-URL `wait_for` or the global one,
bounded by a 10-second timeout. -/
def captureSelStage (ω : Oracle) (filepath : String)
    (wait_for global_wait_for : Option String) (wait_ms : Option Int)
    (global_wait : Int) (full_page : Bool) (tr : List Ev) : CapRes × List Ev :=
  match strTruthy (pyOrOptStr wait_for global_wait_for) with
  | some sel =>
    match runOpE ω tr (.waitForOp (.str sel) (some 10000)) with
    | (.error e, tr1) => (classifyError e, tr1)
    | (.ok _, tr1) => captureWaitStage ω filepath wait_ms global_wait full_page tr1
  | none => captureWaitStage ω filepath wait_ms global_wait full_page tr

/-- Plain navigation followed by the remaining stages (line 137 onwards). -/
def gotoStage (ω : Oracle) (url filepath : String)
    (wait_for global_wait_for : Option String) (wait_ms : Option Int)
    (global_wait : Int) (full_page : Bool) (tr : List Ev) : CapRes × List Ev :=
  match runOpE ω tr (.goto (.str url)) with
  | (.error e, tr1) => (classifyError e, tr1)
  | (.ok _, tr1) =>
    captureSelStage ω filepath wait_for global_wait_for wait_ms global_wait full_page tr1

/-- `capture_single` (lines 115-179).  For POST-with-body the navigation is
bracketed by `page.route(url, ...)` / `page.unroute(url)`; note the source has
no `finally`, so a throwing `goto` skips the `unroute`. -/
def capture_single (ω : Oracle) (url filepath : String) (entry : Entry)
    (global_wait : Int) (global_wait_for : Option String) (full_page : Bool)
    (tr : List Ev) : CapRes × List Ev :=
  let method := entryMethod entry
  let headers := entryHeaders entry
  let wait_for := entryWaitFor entry
  let wait_ms := entryWaitMs entry
  match entryData entry with
  | some pd =>
    if method == "POST" && pdTruthy (some pd) then
      let ovr := routeOverride pd headers
      let tr1 := tr ++ [.op (.route url ovr) true]
      match runOpE ω tr1 (.goto (.str url)) with
      | (.error e, tr2) => (classifyError e, tr2)
      | (.ok _, tr2) =>
        captureSelStage ω filepath wait_for global_wait_for wait_ms global_wait full_page
          (tr2 ++ [.op (.unroute url) true])
    else gotoStage ω url filepath wait_for global_wait_for wait_ms global_wait full_page tr
  | none => gotoStage ω url filepath wait_for global_wait_for wait_ms global_wait full_page tr

/- ================================================================
   Section 8: capture loop, CLI driver (capture_screenshots, main)
   ================================================================ -/

/-- Device preset viewport configuration. -/
structure DeviceCfg where
  width : Nat
  height : Nat
  device_scale_factor : Nat
  is_mobile : Bool
  deriving DecidableEq, Repr

/-- The device preset table (lines 25-30). -/
def DEVICES : List (String × DeviceCfg) :=
  [("desktop", ⟨1280, 720, 1, false⟩), ("laptop", ⟨1440, 900, 1, false⟩),
   ("tablet", ⟨768, 1024, 2, true⟩), ("mobile", ⟨375, 667, 2, true⟩)]

/-- Run-global options threaded through the capture loop. -/
structure GlobalCfg where
  output_dir : String
  vpWidth : Int
  vpHeight : Int
  global_wait : Int
  global_wait_for : Option String
  full_page : Bool

/-- One manifest record (`result_entry`, lines 282-303). -/
structure ResultEntry where
  url : String
  file : String
  filename : String
  status : String
  auth : Bool
  device : Option String
  title : Option String := none
  hash : Option String := none
  page_description : Option String := none
  error : Option String := none
  description : Option String := none
  deriving DecidableEq, Repr

/-- Build one manifest record from a capture result (lines 282-303). -/
def buildResultEntry (url filepath filename : String) (requires_auth : Bool)
    (device_name : String) (description : Option String) (res : CapRes) : ResultEntry :=
  { url := url, file := filepath, filename := filename,
    status := res.status, auth := requires_auth,
    device := if device_name == "default" then none else some device_name,
    title := if res.status == "ok" then some (res.title.getD "") else none,
    hash := if res.status == "ok" then some (res.hash.getD "") else none,
    page_description :=
      if res.status == "ok" then
        match res.page_description with
        | some s => if s == "" then none else some s
        | none => none
      else none,
    error := if res.status == "ok" then none else some (res.error.getD ""),
    description :=
      match description with
      | some d => if d == "" then none else some d
      | none => none }

/-- Filename construction and one capture attempt for a (target, device) pair
(lines 267-303). -/
def attemptCapture (ω : Oracle) (pyh : List Char → Int) (g : GlobalCfg) (entry : Entry)
    (url : String) (name description : Option String) (requires_auth : Bool)
    (device_name suffix : String) (acc : List ResultEntry) (tr : List Ev) :
    List ResultEntry × List Ev :=
  let base_filename := pyOrStr name (sanitize_filename pyh url)
  let filename := base_filename ++ suffix
  let filepath := g.output_dir ++ "/" ++ filename ++ ".png"
  let tr1 := tr ++ [.captureAttempt url device_name (filename ++ ".png")]
  let out := capture_single ω url filepath entry g.global_wait g.global_wait_for g.full_page tr1
  (acc ++ [buildResultEntry url filepath (filename ++ ".png") requires_auth device_name
            description out.1], out.2)

/-- One device iteration (lines 245-307): the default page is reused, a named
preset gets a fresh context (closed afterwards), unknown presets are skipped. -/
def capturePair (ω : Oracle) (pyh : List Char → Int) (g : GlobalCfg) (entry : Entry)
    (url : String) (name description : Option String) (requires_auth : Bool)
    (device_name : String) (acc : List ResultEntry) (tr : List Ev) :
    List ResultEntry × List Ev :=
  if device_name == "default" then
    attemptCapture ω pyh g entry url name description requires_auth device_name "" acc tr
  else
    match List.lookup device_name DEVICES with
    | none => (acc, tr)
    | some _ =>
      let out := attemptCapture ω pyh g entry url name description requires_auth
        device_name ("-" ++ device_name) acc (tr ++ [.newContext device_name])
      (out.1, out.2 ++ [.closeContext device_name])

/-- The inner `for device_name in device_list` loop. -/
def devicesLoop (ω : Oracle) (pyh : List Char → Int) (g : GlobalCfg) (entry : Entry)
    (url : String) (name description : Option String) (requires_auth : Bool) :
    List String → List ResultEntry → List Ev → List ResultEntry × List Ev
  | [], acc, tr => (acc, tr)
  | d :: ds, acc, tr =>
    let out := capturePair ω pyh g entry url name description requires_auth d acc tr
    devicesLoop ω pyh g entry url name description requires_auth ds out.1 out.2

/-- `device_list = devices if devices else ["default"]` (line 243). -/
def deviceListOf (e : Entry) : List String :=
  match entryDevices e with
  | some (d :: ds) => d :: ds
  | _ => ["default"]

/-- The outer `for i, entry in enumerate(urls, 1)` loop (lines 224-307):
entries without a truthy `url` are skipped; `devices` defaults to
`["default"]` when absent or empty. -/
def urlsLoop (ω : Oracle) (pyh : List Char → Int) (g : GlobalCfg) :
    List Entry → List ResultEntry → List Ev → List ResultEntry × List Ev
  | [], acc, tr => (acc, tr)
  | e :: es, acc, tr =>
    match strTruthy (entryUrl e) with
    | none => urlsLoop ω pyh g es acc tr
    | some url =>
      let out := devicesLoop ω pyh g e url (entryName e) (entryDescription e)
        (entryAuth e) (deviceListOf e) acc tr
      urlsLoop ω pyh g es out.1 out.2

/-- Process termination: a `sys.exit(code)` or an uncaught exception (which
makes the CPython interpreter exit with status 1 after a traceback). -/
inductive Halt
  | exited (code : Nat)
  | raised (msg : String)
  deriving DecidableEq, Repr

/-- `capture_screenshots` (lines 182-311): missing URLs and authentication
problems exit with code 2 before any capture; an exception from the initial
auth navigation propagates. -/
def capture_screenshots (ω : Oracle) (pyh : List Char → Int) (config : Config)
    (g : GlobalCfg) : Except Halt (List ResultEntry) × List Ev :=
  match config.urls with
  | [] => (.error (.exited 2), [])
  | _ =>
    let needs_auth := config.urls.any entryAuth
    let tr0 : List Ev := [.newContext "default"]
    if needs_auth then
      match config.auth with
      | none => (.error (.exited 2), tr0)
      | some ac =>
        match perform_auth ω ac tr0 with
        | (.error e, tr1) => (.error (.raised e), tr1)
        | (.ok false, tr1) => (.error (.exited 2), tr1)
        | (.ok true, tr1) =>
          let out := urlsLoop ω pyh g config.urls [] tr1
          (.ok out.1, out.2)
    else
      let out := urlsLoop ω pyh g config.urls [] tr0
      (.ok out.1, out.2)

/-- Exit code aggregation (lines 526, 537-543). -/
def exit_code (results : List ResultEntry) : Nat :=
  let ok_count := (results.filter (fun r => r.status == "ok")).length
  if ok_count = 0 ∧ 0 < results.length then 2
  else if ok_count < results.length then 1
  else 0

/-- `width, height = map(int, args.viewport.lower().split("x"))` (line 473):
defined iff the lowered string splits into exactly two int literals. -/
def parseViewport (s : String) : Option (Int × Int) :=
  match (splitOnChar 'x' (lowerChars s).data).map pyParseInt with
  | [some w, some h] => some (w, h)
  | _ => none

/-- The CLI arguments the model observes. -/
structure Args where
  config : String
  output : String := "./screenshots"
  viewport : String := "1280x720"
  wait : Int := 0
  wait_for : Option String := none
  full_page : Bool := false

/-- The parts of the outside world `main` consults before the browser runs:
config file existence, and the outcome of `open` + `yaml.safe_load`. -/
structure World where
  configExists : Bool
  loadConfig : Except String Config

/-- `main` (lines 442-543): viewport parse and config existence are checked
with exit 2; `load_config` (line 492) is NOT guarded, so a parse/IO failure
propagates as an uncaught exception; on a completed run the process exits
with `exit_code results`. -/
def main_model (ω : Oracle) (pyh : List Char → Int) (w : World) (a : Args) :
    Halt × List Ev :=
  match parseViewport a.viewport with
  | none => (.exited 2, [])
  | some vp =>
    if w.configExists then
      match w.loadConfig with
      | .error e => (.raised e, [])
      | .ok config =>
        let g : GlobalCfg := { output_dir := a.output, vpWidth := vp.1, vpHeight := vp.2,
                               global_wait := a.wait, global_wait_for := a.wait_for,
                               full_page := a.full_page }
        match capture_screenshots ω pyh config g with
        | (.error h, tr) => (h, tr)
        | (.ok rs, tr) => (.exited (exit_code rs), tr)
    else (.exited 2, [])

/- ================================================================
   Section 9: observables and formalized claim statements
   ================================================================ -/

/-- Per-event counters. -/
def evCapCount : Ev → Nat
  | .captureAttempt _ _ _ => 1
  | _ => 0

def evRouteCount : Ev → Nat
  | .op (.route _ _) _ => 1
  | _ => 0

def evUnrouteCount : Ev → Nat
  | .op (.unroute _) _ => 1
  | _ => 0

def evNewCtxCount : Ev → Nat
  | .newContext d => if d == "default" then 0 else 1
  | _ => 0

def evCloseCtxCount : Ev → Nat
  | .closeContext _ => 1
  | _ => 0

/-- Number of capture attempts recorded in a trace. -/
def countCapAttempts (l : List Ev) : Nat := (l.map evCapCount).sum

/-- Number of interception registrations in a trace. -/
def countRoute (l : List Ev) : Nat := (l.map evRouteCount).sum

/-- Number of interception removals in a trace. -/
def countUnroute (l : List Ev) : Nat := (l.map evUnrouteCount).sum

/-- Number of device-context creations in a trace (the default context
creation is tagged "default" and not counted). -/
def countNewCtx (l : List Ev) : Nat := (l.map evNewCtxCount).sum

/-- Number of device-context closures in a trace. -/
def countCloseCtx (l : List Ev) : Nat := (l.map evCloseCtxCount).sum

/-- Does an event touch the interception table? -/
def isRouteEv : Ev → Bool
  | .op (.route _ _) _ => true
  | .op (.unroute _) _ => true
  | _ => false

/-- Claim C6 exactly as stated: for a POST-with-body target the capture
registers an interception scoped to the target URL carrying the method/body/
header override, navigates, and removes the interception on every exit path,
so no rule remains registered afterwards. -/
def claimC6Prop (ω : Oracle) (url filepath : String) (entry : Entry)
    (gw : Int) (gwf : Option String) (fp : Bool) : Prop :=
  (entryMethod entry == "POST" && pdTruthy (entryData entry)) = true →
  ∀ pd, entryData entry = some pd →
    (let ovr := routeOverride pd (entryHeaders entry)
     let tr := (capture_single ω url filepath entry gw gwf fp []).2
     tr.take 1 = [.op (.route url ovr) true] ∧
     (tr.get? 1 = some (.op (.goto (.str url)) true) ∨
      tr.get? 1 = some (.op (.goto (.str url)) false)) ∧
     countRoute tr = countUnroute tr)

/-- The base name a target contributes to its filename(s): explicit `name`
or the sanitized URL (line 267). -/
def entryBase (pyh : List Char → Int) (e : Entry) : String :=
  pyOrStr (entryName e) (sanitize_filename pyh ((entryUrl e).getD ""))

/- ================================================================
   Section 10: concrete demonstration inputs
   ================================================================ -/

/-- A concrete manifest record with a given status. -/
def sampleResult (st : String) : ResultEntry :=
  { url := "https://e.example/", file := "shots/e.png", filename := "e.png",
    status := st, auth := false, device := none }

/-- An environment in which every page operation succeeds. -/
def allOkOracle : Oracle := fun _ _ => .ok ""

/-- An environment in which clicking throws and everything else succeeds. -/
def clickFailOracle : Oracle := fun _ op =>
  match op with
  | .click _ => .error "Element is not attached to the DOM"
  | _ => .ok ""

/-- An environment in which navigation throws a network error. -/
def gotoFailOracle : Oracle := fun _ op =>
  match op with
  | .goto _ => .error "net::ERR_CONNECTION_REFUSED at https://api.example/x"
  | _ => .ok ""

/-- An environment in which the selector wait times out. -/
def selTimeoutOracle : Oracle := fun _ op =>
  match op with
  | .waitForOp _ _ => .error "Timeout 10000ms exceeded."
  | _ => .ok ""

/-- A two-step auth recipe whose second step clicks (and will throw under
`clickFailOracle`). -/
def demoAuthCfg : AuthConfig :=
  { url := some "https://a.example/login",
    steps := [[("fill", SVal.str "#user")], [("click", SVal.str "#submit")]] }

/-- A config with one auth-requiring target and the demo auth recipe. -/
def demoAuthConfig : Config :=
  { urls := [.obj { url := some "https://a.example/app", auth := true }],
    auth := some demoAuthCfg }

/-- A config listing the same plain URL twice (filename collision). -/
def dupUrlConfig : Config :=
  { urls := [.plain "https://example.com/", .plain "https://example.com/"] }

/-- A config with two distinct plain URLs. -/
def twoUrlConfig : Config :=
  { urls := [.plain "https://example.com/a", .plain "https://example.com/b"] }

/-- A POST target with a non-empty raw body. -/
def demoPostEntry : Entry :=
  .obj { url := some "https://api.example/x", method := some "post",
         data := some (.pstr "a=1&b=2") }

/-- Default global options used in demonstrations. -/
def demoGlobal : GlobalCfg :=
  { output_dir := "./screenshots", vpWidth := 1280, vpHeight := 720,
    global_wait := 0, global_wait_for := none, full_page := false }

/-- Default CLI arguments used in demonstrations. -/
def demoArgs : Args := { config := "urls.yaml" }

/-- A world whose config file exists and loads as the given config. -/
def worldWith (c : Config) : World := { configExists := true, loadConfig := .ok c }

/-- Is an event an attempted page operation? -/
def isOpEv : Ev → Bool
  | .op _ _ => true
  | _ => false

/-- Is an event a page operation other than interception management? -/
def isPlainOpEv : Ev → Bool
  | .op (.route _ _) _ => false
  | .op (.unroute _) _ => false
  | .op _ _ => true
  | _ => false

/-- The results of a run of `capture_screenshots` that completed normally. -/
def runResults (ω : Oracle) (pyh : List Char → Int) (config : Config)
    (g : GlobalCfg) : List ResultEntry :=
  match (capture_screenshots ω pyh config g).1 with
  | .ok rs => rs
  | .error _ => []

/- ================================================================
   Lemmas: sanitizer character-level properties
   ================================================================ -/

theorem substBad_all (l : List Char) : (substBad l).all isAllowedChar = true := by
  rw [List.all_eq_true]
  intro c hc
  rcases List.mem_map.mp hc with ⟨d, _, rfl⟩
  by_cases h : isAllowedChar d = true
  · simpa [h]
  · simp only [h]
    simp only [Bool.false_eq_true, if_false]
    decide

theorem noDD_tail {c : Char} {l : List Char} (h : noDoubleDash (c :: l) = true) :
    noDoubleDash l = true := by
  cases l with
  | nil => rfl
  | cons b rest =>
    simp only [noDoubleDash, Bool.and_eq_true] at h
    exact h.2

theorem noDD_cons {c : Char} {l : List Char}
    (hc : c = '-' → l.head? ≠ some '-') (h : noDoubleDash l = true) :
    noDoubleDash (c :: l) = true := by
  cases l with
  | nil => rfl
  | cons b rest =>
    simp only [noDoubleDash, Bool.and_eq_true]
    refine ⟨?_, h⟩
    by_cases hcd : c = '-'
    · have hb : ¬ b = '-' := by
        intro hb
        exact (hc hcd) (by simp [hb])
      simp [hcd, hb]
    · simp [hcd]

theorem collapse_all {p : Char → Bool} (l : List Char) (h : l.all p = true) :
    (collapseDashes l).all p = true := by
  induction l with
  | nil => exact h
  | cons c rest ih =>
    simp only [List.all_cons, Bool.and_eq_true] at h
    have ihr := ih h.2
    simp only [collapseDashes]
    by_cases hc : (c == '-') = true
    · simp only [hc, if_true]
      cases hr : collapseDashes rest with
      | nil => simpa [h.1]
      | cons b t =>
        rw [hr] at ihr
        by_cases hb : b = '-'
        · subst hb; simpa using ihr
        · have hm : (match (b :: t : List Char) with
                  | '-' :: _ => (b :: t : List Char)
                  | _ => c :: b :: t) = c :: b :: t := by
            simp [hb]
          rw [hm]
          simp only [List.all_cons, Bool.and_eq_true] at ihr ⊢
          exact ⟨h.1, ihr⟩
    · simp only [hc]
      simp only [Bool.false_eq_true, if_false, List.all_cons, Bool.and_eq_true]
      exact ⟨h.1, ihr⟩

theorem collapse_noDD (l : List Char) : noDoubleDash (collapseDashes l) = true := by
  induction l with
  | nil => rfl
  | cons c rest ih =>
    simp only [collapseDashes]
    by_cases hc : (c == '-') = true
    · simp only [hc, if_true]
      cases hr : collapseDashes rest with
      | nil => rfl
      | cons b t =>
        rw [hr] at ih
        by_cases hb : b = '-'
        · subst hb; simpa using ih
        · have hm : (match (b :: t : List Char) with
                  | '-' :: _ => (b :: t : List Char)
                  | _ => c :: b :: t) = c :: b :: t := by
            simp [hb]
          rw [hm]
          exact noDD_cons (fun _ => by simp [hb]) ih
    · simp only [hc]
      simp only [Bool.false_eq_true, if_false]
      refine noDD_cons (fun hcd => absurd (by simp [hcd]) hc) ih

theorem dropWhile_all {p q : Char → Bool} (l : List Char) (h : l.all q = true) :
    (l.dropWhile p).all q = true := by
  induction l with
  | nil => exact h
  | cons c rest ih =>
    simp only [List.all_cons, Bool.and_eq_true] at h
    rw [List.dropWhile_cons]
    by_cases hp : p c = true
    · simp only [hp, if_true]
      exact ih h.2
    · simp only [hp, Bool.false_eq_true, if_false, List.all_cons, Bool.and_eq_true]
      exact ⟨h.1, h.2⟩

theorem dropWhile_noDD {p : Char → Bool} (l : List Char) (h : noDoubleDash l = true) :
    noDoubleDash (l.dropWhile p) = true := by
  induction l with
  | nil => exact h
  | cons c rest ih =>
    rw [List.dropWhile_cons]
    by_cases hp : p c = true
    · simp only [hp, if_true]
      exact ih (noDD_tail h)
    · simp only [hp, Bool.false_eq_true, if_false]
      exact h

theorem dropWhile_head {p : Char → Bool} (l : List Char) {x : Char}
    (h : (l.dropWhile p).head? = some x) : p x = false := by
  induction l with
  | nil => simp at h
  | cons c rest ih =>
    rw [List.dropWhile_cons] at h
    by_cases hp : p c = true
    · simp only [hp, if_true] at h
      exact ih h
    · simp only [hp, Bool.false_eq_true, if_false, List.head?_cons, Option.some.injEq] at h
      subst h
      simp only [Bool.not_eq_true] at hp
      exact hp

theorem dTW_all {p q : Char → Bool} (l : List Char) (h : l.all q = true) :
    (dropTrailingWhile p l).all q = true := by
  induction l with
  | nil => exact h
  | cons c rest ih =>
    simp only [List.all_cons, Bool.and_eq_true] at h
    simp only [dropTrailingWhile]
    cases hr : dropTrailingWhile p rest with
    | nil =>
      by_cases hp : p c = true
      · simp [hp]
      · simp [hp, h.1]
    | cons b t =>
      have ihr := ih h.2
      rw [hr] at ihr
      simp only [List.all_cons, Bool.and_eq_true] at ihr ⊢
      exact ⟨h.1, ihr⟩

theorem dTW_head {p : Char → Bool} (l : List Char)
    (h : dropTrailingWhile p l ≠ []) :
    (dropTrailingWhile p l).head? = l.head? := by
  induction l with
  | nil => simp [dropTrailingWhile] at h
  | cons c rest ih =>
    simp only [dropTrailingWhile] at h ⊢
    cases hr : dropTrailingWhile p rest with
    | nil =>
      rw [hr] at h
      by_cases hp : p c = true
      · simp [hp] at h
      · simp [hp]
    | cons b t => simp

theorem dTW_noDD {p : Char → Bool} (l : List Char) (h : noDoubleDash l = true) :
    noDoubleDash (dropTrailingWhile p l) = true := by
  induction l with
  | nil => exact h
  | cons c rest ih =>
    have ihr := ih (noDD_tail h)
    simp only [dropTrailingWhile]
    cases hr : dropTrailingWhile p rest with
    | nil =>
      by_cases hp : p c = true
      · simp [hp, noDoubleDash]
      · simp [hp, noDoubleDash]
    | cons b t =>
      rw [hr] at ihr
      refine noDD_cons ?_ ihr
      intro hc hcon
      subst hc
      simp only [List.head?_cons, Option.some.injEq] at hcon
      subst hcon
      have hne : dropTrailingWhile p rest ≠ [] := by rw [hr]; simp
      have hh := dTW_head rest hne
      rw [hr] at hh
      cases rest with
      | nil => simp [dropTrailingWhile] at hr
      | cons d ds =>
        simp only [List.head?_cons, Option.some.injEq] at hh
        have h2 := h
        simp only [noDoubleDash, Bool.and_eq_true] at h2
        rw [← hh] at h2
        simp at h2

theorem dTW_getLast {p : Char → Bool} (l : List Char) {x : Char}
    (h : (dropTrailingWhile p l).getLast? = some x) : p x = false := by
  induction l with
  | nil => simp [dropTrailingWhile] at h
  | cons c rest ih =>
    simp only [dropTrailingWhile] at h
    cases hr : dropTrailingWhile p rest with
    | nil =>
      rw [hr] at h
      by_cases hp : p c = true
      · simp [hp] at h
      · simp only [hp, Bool.false_eq_true, if_false, List.getLast?_singleton,
          Option.some.injEq] at h
        subst h
        simp only [Bool.not_eq_true] at hp
        exact hp
    | cons b t =>
      rw [hr] at h
      rw [List.getLast?_cons_cons] at h
      rw [← hr] at h
      exact ih h

theorem sanitize_core_all (l : List Char) :
    (sanitize_core l).all isAllowedChar = true :=
  dTW_all _ (dropWhile_all _ (collapse_all _ (substBad_all l)))

theorem sanitize_core_noDD (l : List Char) :
    noDoubleDash (sanitize_core l) = true :=
  dTW_noDD _ (dropWhile_noDD _ (collapse_noDD _))

theorem sanitize_core_head (l : List Char) :
    (sanitize_core l).head? ≠ some '-' := by
  intro hcon
  have hne : dropTrailingWhile (· == '-')
      ((collapseDashes (substBad l)).dropWhile (· == '-')) ≠ [] := by
    intro he
    unfold sanitize_core stripChar at hcon
    rw [he] at hcon
    simp at hcon
  have hh := dTW_head _ hne
  have hdw : ((collapseDashes (substBad l)).dropWhile (· == '-')).head? = some '-' := by
    rw [← hh]
    exact hcon
  have := dropWhile_head _ hdw
  simp at this

theorem sanitize_core_last (l : List Char) :
    (sanitize_core l).getLast? ≠ some '-' := by
  intro hcon
  have := dTW_getLast _ hcon
  simp at this

/- ================================================================
   Lemmas: decimal digits of Python integer strings
   ================================================================ -/

theorem digitChar_isDigit {d : Nat} (h : d < 10) : (digitChar d).isDigit = true := by
  interval_cases d <;> decide

theorem natStrAux_all (fuel : Nat) : ∀ (n : Nat) (acc : List Char),
    acc.all Char.isDigit = true → (natStrAux fuel n acc).all Char.isDigit = true := by
  induction fuel with
  | zero => intro n acc h; exact h
  | succ f ih =>
    intro n acc h
    simp only [natStrAux]
    by_cases hn : n = 0
    · simp [hn, h]
    · simp only [hn, if_false]
      apply ih
      simp only [List.all_cons, Bool.and_eq_true]
      exact ⟨digitChar_isDigit (Nat.mod_lt _ (by omega)), h⟩

theorem natStrAux_len_ge (fuel : Nat) : ∀ (n : Nat) (acc : List Char),
    acc.length ≤ (natStrAux fuel n acc).length := by
  induction fuel with
  | zero => intro n acc; simp [natStrAux]
  | succ f ih =>
    intro n acc
    simp only [natStrAux]
    by_cases hn : n = 0
    · simp [hn]
    · simp only [hn, if_false]
      calc acc.length ≤ (digitChar (n % 10) :: acc).length := by simp
        _ ≤ _ := ih _ _

theorem natStrAux_len_pow (k : Nat) : ∀ (fuel n : Nat) (acc : List Char),
    10 ^ k ≤ n → k + 1 ≤ fuel →
    k + 1 + acc.length ≤ (natStrAux fuel n acc).length := by
  induction k with
  | zero =>
    intro fuel n acc h1 h2
    cases fuel with
    | zero => omega
    | succ f =>
      simp only [natStrAux]
      have hn : ¬ n = 0 := by simp at h1; omega
      simp only [hn, if_false]
      have := natStrAux_len_ge f (n / 10) (digitChar (n % 10) :: acc)
      simp only [List.length_cons] at this
      omega
  | succ k ih =>
    intro fuel n acc h1 h2
    cases fuel with
    | zero => omega
    | succ f =>
      simp only [natStrAux]
      have hpos : (0 : Nat) < 10 ^ (k + 1) := pow_pos (by norm_num) _
      have hn : ¬ n = 0 := by omega
      simp only [hn, if_false]
      have h10 : 10 ^ k ≤ n / 10 := by
        rw [Nat.le_div_iff_mul_le (by omega)]
        calc 10 ^ k * 10 = 10 ^ (k + 1) := by ring
          _ ≤ n := h1
      have := ih f (n / 10) (digitChar (n % 10) :: acc) h10 (by omega)
      simp only [List.length_cons] at this
      omega

theorem natStr_all (n : Nat) : (natStr n).all Char.isDigit = true := by
  unfold natStr
  by_cases hn : n = 0
  · subst hn; decide
  · simp only [hn, if_false]
    exact natStrAux_all _ _ _ rfl

theorem natStr_len6 {n : Nat} (h : 100000 ≤ n) : 6 ≤ (natStr n).length := by
  unfold natStr
  have hn : ¬ n = 0 := by omega
  simp only [hn, if_false]
  have := natStrAux_len_pow 5 (n + 1) n [] (by norm_num; omega) (by omega)
  simpa using this

theorem natStr_ne_nil (n : Nat) : natStr n ≠ [] := by
  unfold natStr
  by_cases hn : n = 0
  · simp [hn]
  · simp only [hn, if_false]
    have h0 := natStrAux_len_pow 0 (n + 1) n [] (by simp; omega) (by omega)
    intro he
    rw [he] at h0
    simp at h0

theorem pyIntStr_ne_nil (i : Int) : pyIntStr i ≠ [] := by
  unfold pyIntStr
  by_cases hi : i < 0
  · simp [hi]
  · simp only [hi, if_false]
    exact natStr_ne_nil _

theorem querySuffix_ne_nil (h : Int) : querySuffix h ≠ [] := by
  unfold querySuffix pyTakeLast
  intro he
  have h1 : (pyIntStr h).length ≠ 0 := by
    intro h0
    exact pyIntStr_ne_nil h (List.length_eq_zero.mp h0)
  have h2 := congrArg List.length he
  rw [List.length_drop] at h2
  simp only [List.length_nil] at h2
  omega

theorem querySuffix_len_le (h : Int) : (querySuffix h).length ≤ 6 := by
  unfold querySuffix pyTakeLast
  rw [List.length_drop]
  omega

theorem querySuffix_six {h : Int} (hge : 100000 ≤ h.natAbs) :
    (querySuffix h).length = 6 ∧ (querySuffix h).all Char.isDigit = true := by
  unfold querySuffix pyTakeLast pyIntStr
  by_cases hi : h < 0
  · simp only [hi, if_true]
    have habs : (-h).toNat = h.natAbs := by omega
    rw [habs]
    have h6 := natStr_len6 (n := h.natAbs) hge
    have hstep : ('-' :: natStr h.natAbs).drop (('-' :: natStr h.natAbs).length - 6)
        = (natStr h.natAbs).drop ((natStr h.natAbs).length - 6) := by
      have harith : ('-' :: natStr h.natAbs).length - 6 =
          ((natStr h.natAbs).length - 6) + 1 := by
        simp only [List.length_cons]; omega
      rw [harith, List.drop_succ_cons]
    rw [hstep]
    constructor
    · rw [List.length_drop]; omega
    · have hall := natStr_all h.natAbs
      rw [List.all_eq_true] at hall ⊢
      intro c hc
      exact hall c (List.drop_subset _ _ hc)
  · simp only [hi, if_false]
    have habs : h.toNat = h.natAbs := by omega
    rw [habs]
    have h6 := natStr_len6 (n := h.natAbs) hge
    constructor
    · rw [List.length_drop]; omega
    · have hall := natStr_all h.natAbs
      rw [List.all_eq_true] at hall ⊢
      intro c hc
      exact hall c (List.drop_subset _ _ hc)

theorem sanitize_path_query (pyh : List Char → Int) (url : String)
    (hq : (urlparse url.data).query ≠ []) :
    sanitize_path pyh url =
      pathPart url.data ++ '-' :: querySuffix (pyh (urlparse url.data).query) := by
  unfold sanitize_path
  obtain ⟨qc, qrest, hqe⟩ := List.exists_cons_of_ne_nil hq
  rw [hqe]

theorem sanitize_input_query (pyh : List Char → Int) (url : String)
    (hq : (urlparse url.data).query ≠ []) :
    sanitize_input pyh url =
      hostPart url.data ++ '-' ::
        (pathPart url.data ++ '-' :: querySuffix (pyh (urlparse url.data).query)) := by
  have hp := sanitize_path_query pyh url hq
  have hne : sanitize_path pyh url ≠ "index".data := by
    rw [hp]
    intro he
    have hmem : '-' ∈ "index".data := by
      rw [← he]
      exact List.mem_append_right _ (List.mem_cons_self _ _)
    exact absurd hmem (by decide)
  unfold sanitize_input
  rw [if_pos hne, hp]

/- ================================================================
   Claim theorems: sanitizer (C7, C8, C5)
   ================================================================ -/

/-- Claim C7: for every URL with no query string the sanitizer's output
contains only characters from `[A-Za-z0-9-_]`, has no leading or trailing
dash, and has no two consecutive dashes (parker.py lines 43-46). -/
theorem sanitize_no_query_charclass (pyh : List Char → Int) (url : String)
    (hq : (urlparse url.data).query = []) :
    ((sanitize_filename pyh url).data).all isAllowedChar = true ∧
    noDoubleDash ((sanitize_filename pyh url).data) = true ∧
    ((sanitize_filename pyh url).data).head? ≠ some '-' ∧
    ((sanitize_filename pyh url).data).getLast? ≠ some '-' :=
  ⟨sanitize_core_all _, sanitize_core_noDD _, sanitize_core_head _, sanitize_core_last _⟩

/-- Witness for `sanitize_no_query_charclass` at a concrete query-free URL. -/
theorem sanitize_no_query_charclass_witness :
    (urlparse "https://example.com:8080/a b/c.html".data).query = [] ∧
    (((sanitize_filename (fun _ => 0) "https://example.com:8080/a b/c.html").data).all
        isAllowedChar = true ∧
     noDoubleDash ((sanitize_filename (fun _ => 0) "https://example.com:8080/a b/c.html").data)
        = true ∧
     ((sanitize_filename (fun _ => 0) "https://example.com:8080/a b/c.html").data).head?
        ≠ some '-' ∧
     ((sanitize_filename (fun _ => 0) "https://example.com:8080/a b/c.html").data).getLast?
        ≠ some '-') :=
  ⟨by decide,
   sanitize_no_query_charclass (fun _ => 0) "https://example.com:8080/a b/c.html" (by decide)⟩

/-- Claim C8: the two concrete sanitizer examples: an empty path defaults to
"index" and collapses to the host-only form; colons in the host and slashes
in the path become dashes (parker.py lines 33-46). -/
theorem sanitize_concrete_examples (pyh : List Char → Int) :
    sanitize_filename pyh "https://example.com/" = "example-com" ∧
    sanitize_filename pyh "https://localhost:3000/a/b" = "localhost-3000-a-b" :=
  ⟨rfl, rfl⟩

/-- Claim C5 as stated is falsified at a hash value of 7: `str(7)[-6:]` is the
single character "7", so the appended suffix is neither 6 characters long nor
a full 6-digit block.  (Python's per-process hash is 64-bit and can take any
small or negative value.) -/
theorem claimC5_counterexample :
    ¬ claimC5Prop (fun _ => 7) "https://example.com/p?q=1" := by
  unfold claimC5Prop
  decide

/-- Claim C5 amended: for every URL with a non-empty query string the
sanitized base name is the sanitization of host-dash-path with the
hash-derived suffix appended; the suffix (the last at-most-6 characters of
`str(hash)`) is non-empty and at most 6 characters, and it is exactly 6
decimal digits whenever the hash magnitude is at least 100000. -/
theorem sanitize_query_suffix_amended (pyh : List Char → Int) (url : String)
    (hq : (urlparse url.data).query ≠ []) :
    (sanitize_filename pyh url).data =
      sanitize_core (hostPart url.data ++ '-' ::
        (pathPart url.data ++ '-' :: querySuffix (pyh (urlparse url.data).query))) ∧
    querySuffix (pyh (urlparse url.data).query) ≠ [] ∧
    (querySuffix (pyh (urlparse url.data).query)).length ≤ 6 ∧
    (100000 ≤ (pyh (urlparse url.data).query).natAbs →
      (querySuffix (pyh (urlparse url.data).query)).length = 6 ∧
      (querySuffix (pyh (urlparse url.data).query)).all Char.isDigit = true) := by
  refine ⟨?_, querySuffix_ne_nil _, querySuffix_len_le _, fun hge => querySuffix_six hge⟩
  show sanitize_core (sanitize_input pyh url) = _
  rw [sanitize_input_query pyh url hq]

/-- Witness for `sanitize_query_suffix_amended` at a concrete URL and a
concrete (negative, large) hash value. -/
theorem sanitize_query_suffix_amended_witness :
    (urlparse "https://example.com/p?q=1".data).query ≠ [] ∧
    ((sanitize_filename (fun _ => -9876543) "https://example.com/p?q=1").data =
      sanitize_core (hostPart "https://example.com/p?q=1".data ++ '-' ::
        (pathPart "https://example.com/p?q=1".data ++ '-' :: querySuffix (-9876543))) ∧
     querySuffix (-9876543) ≠ [] ∧
     (querySuffix (-9876543)).length ≤ 6 ∧
     (100000 ≤ (Int.natAbs (-9876543)) →
       (querySuffix (-9876543)).length = 6 ∧
       (querySuffix (-9876543)).all Char.isDigit = true)) :=
  ⟨by decide,
   sanitize_query_suffix_amended (fun _ => -9876543) "https://example.com/p?q=1" (by decide)⟩

/- ================================================================
   Claim theorems: exit code aggregation (C1)
   ================================================================ -/

/-- Claim C1: the final exit code is a pure function of the recorded capture
results: 0 when all are ok, 1 when some but not all are ok, 2 when at least
one was attempted and none is ok; and a completed run of `main` exits with
exactly `exit_code results` (parker.py lines 526, 537-543). -/
theorem exit_code_aggregates (rs : List ResultEntry) :
    ((∀ r ∈ rs, r.status = "ok") → exit_code rs = 0) ∧
    ((∃ r ∈ rs, r.status = "ok") → (∃ r ∈ rs, r.status ≠ "ok") → exit_code rs = 1) ∧
    (rs ≠ [] → (∀ r ∈ rs, r.status ≠ "ok") → exit_code rs = 2) ∧
    (∀ (ω : Oracle) (pyh : List Char → Int) (w : World) (a : Args) (config : Config)
       (vp : Int × Int) (tr : List Ev),
       parseViewport a.viewport = some vp →
       w.configExists = true →
       w.loadConfig = .ok config →
       capture_screenshots ω pyh config
         { output_dir := a.output, vpWidth := vp.1, vpHeight := vp.2,
           global_wait := a.wait, global_wait_for := a.wait_for,
           full_page := a.full_page } = (.ok rs, tr) →
       main_model ω pyh w a = (.exited (exit_code rs), tr)) := by
  refine ⟨?_, ?_, ?_, ?_⟩
  · intro h
    have hf : rs.filter (fun r => r.status == "ok") = rs :=
      List.filter_eq_self.mpr (fun a ha => by simpa using h a ha)
    unfold exit_code
    rw [hf]
    rcases Nat.eq_zero_or_pos rs.length with h0 | h0
    · rw [if_neg (by omega), if_neg (by omega)]
    · rw [if_neg (by omega), if_neg (by omega)]
  · intro hok hbad
    obtain ⟨x, hx, hxs⟩ := hok
    obtain ⟨y, hy, hys⟩ := hbad
    have hmem : x ∈ rs.filter (fun r => r.status == "ok") :=
      List.mem_filter.mpr ⟨hx, by simpa using hxs⟩
    have hpos : 0 < (rs.filter (fun r => r.status == "ok")).length :=
      List.length_pos.mpr (fun he => by rw [he] at hmem; simp at hmem)
    have hlt : (rs.filter (fun r => r.status == "ok")).length < rs.length := by
      rw [List.length_filter_lt_length_iff_exists]
      exact ⟨y, hy, by simpa using hys⟩
    unfold exit_code
    rw [if_neg (by omega), if_pos (by omega)]
  · intro hne h
    have hf : rs.filter (fun r => r.status == "ok") = [] :=
      List.filter_eq_nil_iff.mpr (fun a ha => by simpa using h a ha)
    have hpos : 0 < rs.length := List.length_pos.mpr hne
    unfold exit_code
    rw [hf]
    rw [if_pos (by simp; omega)]
  · intro ω pyh w a config vp tr hvp hce hlc hcap
    unfold main_model
    rw [hvp, hce, hlc]
    simp only [if_true]
    rw [hcap]

/-- Witness for `exit_code_aggregates` on three concrete result lists. -/
theorem exit_code_aggregates_witness :
    exit_code [sampleResult "ok"] = 0 ∧
    exit_code [sampleResult "ok", sampleResult "error"] = 1 ∧
    exit_code [sampleResult "timeout"] = 2 :=
  ⟨(exit_code_aggregates [sampleResult "ok"]).1 (by decide),
   (exit_code_aggregates [sampleResult "ok", sampleResult "error"]).2.1
     (by decide) (by decide),
   (exit_code_aggregates [sampleResult "timeout"]).2.2.1 (by decide) (by decide)⟩

/- ================================================================
   Lemmas: auth step runner structure
   ================================================================ -/

theorem countCap_append (a b : List Ev) :
    countCapAttempts (a ++ b) = countCapAttempts a + countCapAttempts b := by
  unfold countCapAttempts
  rw [List.map_append, List.sum_append]

theorem authSteps_countCap (ω : Oracle) (steps : List StepDict) :
    ∀ tr : List Ev,
      countCapAttempts (authSteps ω steps tr).2 = countCapAttempts tr := by
  induction steps with
  | nil => intro tr; rfl
  | cons s ss ih =>
    intro tr
    simp only [authSteps]
    cases ho : stepOp s with
    | none => exact ih tr
    | some o =>
      cases hw : ω tr o with
      | ok v =>
        simp only [runOpE, hw]
        rw [ih]
        rw [countCap_append]
        simp [countCapAttempts, evCapCount]
      | error e =>
        simp only [runOpE, hw]
        rw [countCap_append]
        simp [countCapAttempts, evCapCount]

theorem authSteps_cons (ω : Oracle) (s : StepDict) (ss : List StepDict)
    (tr : List Ev) :
    authSteps ω (s :: ss) tr =
      match stepOp s with
      | none => authSteps ω ss tr
      | some o =>
        match runOpE ω tr o with
        | (.ok _, tr1) => authSteps ω ss tr1
        | (.error _, tr1) => (false, tr1) := rfl

theorem authSteps_fail_structure (ω : Oracle) (steps : List StepDict) :
    ∀ tr : List Ev, (authSteps ω steps tr).1 = false →
    ∃ stsPre st stsPost o,
      steps = stsPre ++ st :: stsPost ∧ stepOp st = some o ∧
      (authSteps ω steps tr).2 =
        tr ++ (stepOps stsPre).map (fun op => Ev.op op true) ++ [.op o false] := by
  induction steps with
  | nil => intro tr h; simp [authSteps] at h
  | cons s ss ih =>
    intro tr h
    cases ho : stepOp s with
    | none =>
      have he : authSteps ω (s :: ss) tr = authSteps ω ss tr := by
        rw [authSteps_cons, ho]
      rw [he] at h ⊢
      obtain ⟨p1, st, p2, o, hsp, hop, htr⟩ := ih tr h
      exact ⟨s :: p1, st, p2, o, by simp [hsp], hop,
        by rw [htr]; simp [stepOps, List.filterMap_cons, ho]⟩
    | some o =>
      cases hw : ω tr o with
      | ok v =>
        have he : authSteps ω (s :: ss) tr = authSteps ω ss (tr ++ [.op o true]) := by
          rw [authSteps_cons, ho]
          simp [runOpE, hw]
        rw [he] at h ⊢
        obtain ⟨p1, st, p2, o', hsp, hop, htr⟩ := ih _ h
        refine ⟨s :: p1, st, p2, o', by simp [hsp], hop, ?_⟩
        rw [htr]
        simp [stepOps, List.filterMap_cons, ho]
      | error e =>
        have he : authSteps ω (s :: ss) tr = (false, tr ++ [.op o false]) := by
          rw [authSteps_cons, ho]
          simp [runOpE, hw]
        rw [he]
        exact ⟨[], s, ss, o, rfl, ho, by simp [stepOps]⟩

/- ================================================================
   Claim theorems: authentication runner (C9, C2)
   ================================================================ -/

/-- Claim C9: an auth step object whose keys match none of the seven
recognized kinds (fill, click, wait, wait_for, type, press, goto) is silently
skipped: the run with it is identical (same result, same trace — so no
browser operation and no error) to the run without it, and the overall
authentication succeeds iff the remaining steps succeed (lines 75-109 have no
else branch). -/
theorem unknown_step_skipped (st : StepDict)
    (h : ∀ k ∈ ["fill", "click", "wait", "wait_for", "type", "press", "goto"],
          List.lookup k st = none)
    (ω : Oracle) (stsPre stsPost : List StepDict) (tr : List Ev) :
    authSteps ω (stsPre ++ st :: stsPost) tr = authSteps ω (stsPre ++ stsPost) tr := by
  have hop : stepOp st = none := by
    unfold stepOp
    rw [h "fill" (by simp), h "click" (by simp), h "wait" (by simp),
        h "wait_for" (by simp), h "type" (by simp), h "press" (by simp),
        h "goto" (by simp)]
  induction stsPre generalizing tr with
  | nil =>
    simp only [List.nil_append, authSteps, hop]
  | cons s ss ih =>
    simp only [List.cons_append, authSteps]
    cases ho : stepOp s with
    | none => exact ih tr
    | some o =>
      cases hw : ω tr o with
      | ok v =>
        simp only [runOpE, hw]
        exact ih _
      | error e =>
        simp only [runOpE, hw]

/-- Witness for `unknown_step_skipped`: a step keyed "hover" is skipped. -/
theorem unknown_step_skipped_witness :
    (∀ k ∈ ["fill", "click", "wait", "wait_for", "type", "press", "goto"],
        List.lookup k [("hover", SVal.str "#x")] = none) ∧
    authSteps allOkOracle
        ([[("fill", SVal.str "#u")]] ++ [("hover", SVal.str "#x")] :: []) [] =
      authSteps allOkOracle ([[("fill", SVal.str "#u")]] ++ []) [] :=
  ⟨by decide,
   unknown_step_skipped [("hover", SVal.str "#x")] (by decide) allOkOracle
     [[("fill", SVal.str "#u")]] [] []⟩

/-- Claim C2: when authentication runs (some target requires auth, an auth
block with a truthy URL is present, the login navigation succeeds) and some
step's browser operation throws, the whole authentication fails at the first
throwing step — the trace ends at that step's failed operation, each earlier
step contributed at most its one successful operation and nothing is retried
— zero captures are attempted, and the process exits with code 2. -/
theorem auth_step_failure_aborts (ω : Oracle) (pyh : List Char → Int)
    (w : World) (a : Args) (config : Config) (ac : AuthConfig) (u v : String)
    (vp : Int × Int)
    (hvp : parseViewport a.viewport = some vp)
    (hce : w.configExists = true)
    (hlc : w.loadConfig = .ok config)
    (hna : config.urls.any entryAuth = true)
    (hac : config.auth = some ac)
    (hu : strTruthy ac.url = some u)
    (hgoto : ω [.newContext "default"] (.goto (.str u)) = .ok v)
    (hfail : (authSteps ω ac.steps (authStartTrace u)).1 = false) :
    main_model ω pyh w a = (.exited 2, (authSteps ω ac.steps (authStartTrace u)).2) ∧
    countCapAttempts (authSteps ω ac.steps (authStartTrace u)).2 = 0 ∧
    ∃ stsPre st stsPost o,
      ac.steps = stsPre ++ st :: stsPost ∧ stepOp st = some o ∧
      (authSteps ω ac.steps (authStartTrace u)).2 =
        authStartTrace u ++ (stepOps stsPre).map (fun op => Ev.op op true) ++
          [.op o false] := by
  refine ⟨?_, ?_, ?_⟩
  · rcases hst : authSteps ω ac.steps (authStartTrace u) with ⟨b, tr2⟩
    have hb : b = false := by rw [hst] at hfail; exact hfail
    subst hb
    have hpa : perform_auth ω ac [Ev.newContext "default"] = (.ok false, tr2) := by
      unfold perform_auth
      simp only [hu]
      unfold runOpE
      simp only [hgoto]
      have h2 : authSteps ω ac.steps ([Ev.newContext "default"] ++
          [Ev.op (.goto (.str u)) true]) = (false, tr2) := hst
      simp only [h2]
    have hcap : capture_screenshots ω pyh config
        { output_dir := a.output, vpWidth := vp.1, vpHeight := vp.2,
          global_wait := a.wait, global_wait_for := a.wait_for,
          full_page := a.full_page } = (.error (.exited 2), tr2) := by
      unfold capture_screenshots
      cases hcu : config.urls with
      | nil => rw [hcu] at hna; simp at hna
      | cons e es =>
        rw [hcu] at hna
        simp only [hna, if_true]
        rw [← hcu] at hna ⊢
        simp only [hac, hpa]
    unfold main_model
    simp only [hvp, hce, if_true, hlc, hcap]
  · rw [authSteps_countCap]
    rfl
  · exact authSteps_fail_structure ω ac.steps _ hfail

/-- Witness for `auth_step_failure_aborts`: the demo config whose second auth
step clicks, under the oracle that makes clicks throw. -/
theorem auth_step_failure_aborts_witness :
    main_model clickFailOracle (fun _ => 0) (worldWith demoAuthConfig) demoArgs =
      (.exited 2, (authSteps clickFailOracle demoAuthCfg.steps
        (authStartTrace "https://a.example/login")).2) ∧
    countCapAttempts (authSteps clickFailOracle demoAuthCfg.steps
        (authStartTrace "https://a.example/login")).2 = 0 ∧
    ∃ stsPre st stsPost o,
      demoAuthCfg.steps = stsPre ++ st :: stsPost ∧ stepOp st = some o ∧
      (authSteps clickFailOracle demoAuthCfg.steps
          (authStartTrace "https://a.example/login")).2 =
        authStartTrace "https://a.example/login" ++
          (stepOps stsPre).map (fun op => Ev.op op true) ++ [.op o false] :=
  auth_step_failure_aborts clickFailOracle (fun _ => 0) (worldWith demoAuthConfig)
    demoArgs demoAuthConfig demoAuthCfg "https://a.example/login" "" (1280, 720)
    rfl rfl rfl (by decide) rfl rfl rfl rfl

/- ================================================================
   Lemmas: capture engine trace structure and error containment
   ================================================================ -/

theorem all_append_of {p : Ev → Bool} {l1 l2 : List Ev}
    (h1 : l1.all p = true) (h2 : l2.all p = true) : (l1 ++ l2).all p = true := by
  simp [List.all_append, h1, h2]

theorem classifyError_fields (e : String) :
    (classifyError e).error = some e ∧
    (classifyError e).status ∈ (["timeout", "network_error", "error"] : List String) := by
  unfold classifyError
  by_cases h1 : containsSeq "timeout".data (lowerChars e).data = true
  · simp [h1]
  · by_cases h2 : containsSeq "net::".data (lowerChars e).data = true
    · simp [h1, h2]
    · simp [h1, h2]

theorem captureFinish_trace (ω : Oracle) (fp : String) (fullp : Bool)
    (t d : String) (tr : List Ev) :
    ∃ evs, (captureFinish ω fp fullp t d tr).2 = tr ++ evs ∧
      evs.all isPlainOpEv = true := by
  unfold captureFinish runOpE
  cases h1 : ω tr (.screenshot fp fullp) with
  | error e =>
    refine ⟨[.op (.screenshot fp fullp) false], ?_, rfl⟩
    simp only [h1]
  | ok v =>
    simp only [h1]
    cases h2 : ω (tr ++ [.op (.screenshot fp fullp) true]) (.fileHash fp) with
    | error e =>
      refine ⟨[.op (.screenshot fp fullp) true, .op (.fileHash fp) false], ?_, rfl⟩
      simp only [h2]
      simp
    | ok hv =>
      refine ⟨[.op (.screenshot fp fullp) true, .op (.fileHash fp) true], ?_, rfl⟩
      simp only [h2]
      simp

theorem captureFinish_status (ω : Oracle) (fp : String) (fullp : Bool)
    (t d : String) (tr : List Ev) :
    (captureFinish ω fp fullp t d tr).1.status = "ok" ∨
    ∃ e, (captureFinish ω fp fullp t d tr).1 = classifyError e := by
  unfold captureFinish runOpE
  cases h1 : ω tr (.screenshot fp fullp) with
  | error e =>
    refine Or.inr ⟨e, ?_⟩
    simp only [h1]
  | ok v =>
    simp only [h1]
    cases h2 : ω (tr ++ [.op (.screenshot fp fullp) true]) (.fileHash fp) with
    | error e =>
      refine Or.inr ⟨e, ?_⟩
      simp only [h2]
    | ok hv =>
      refine Or.inl ?_
      simp only [h2]

theorem captureMetaStage_trace (ω : Oracle) (fp : String) (fullp : Bool)
    (tr : List Ev) :
    ∃ evs, (captureMetaStage ω fp fullp tr).2 = tr ++ evs ∧
      evs.all isPlainOpEv = true := by
  unfold captureMetaStage runOpE
  cases h1 : ω tr .titleOp with
  | error e =>
    refine ⟨[.op .titleOp false], ?_, rfl⟩
    simp only [h1]
  | ok t =>
    simp only [h1]
    cases h2 : ω (tr ++ [.op .titleOp true]) .evalMeta with
    | error e =>
      refine ⟨[.op .titleOp true, .op .evalMeta false], ?_, rfl⟩
      simp only [h2]
      simp
    | ok m =>
      simp only [h2]
      obtain ⟨evs, he, hp⟩ :=
        captureFinish_trace ω fp fullp t m
          ((tr ++ [.op .titleOp true]) ++ [.op .evalMeta true])
      refine ⟨[.op .titleOp true, .op .evalMeta true] ++ evs, ?_, all_append_of ?_ hp⟩
      · rw [he]
        simp
      · rfl

theorem captureMetaStage_status (ω : Oracle) (fp : String) (fullp : Bool)
    (tr : List Ev) :
    (captureMetaStage ω fp fullp tr).1.status = "ok" ∨
    ∃ e, (captureMetaStage ω fp fullp tr).1 = classifyError e := by
  unfold captureMetaStage runOpE
  cases h1 : ω tr .titleOp with
  | error e =>
    refine Or.inr ⟨e, ?_⟩
    simp only [h1]
  | ok t =>
    simp only [h1]
    cases h2 : ω (tr ++ [.op .titleOp true]) .evalMeta with
    | error e =>
      refine Or.inr ⟨e, ?_⟩
      simp only [h2]
    | ok m =>
      simp only [h2]
      exact captureFinish_status ω fp fullp t m _

theorem captureWaitStage_trace (ω : Oracle) (fp : String) (wms : Option Int)
    (gw : Int) (fullp : Bool) (tr : List Ev) :
    ∃ evs, (captureWaitStage ω fp wms gw fullp tr).2 = tr ++ evs ∧
      evs.all isPlainOpEv = true := by
  unfold captureWaitStage runOpE
  by_cases hw : wms.getD gw > 0
  · simp only [hw, if_true]
    cases h1 : ω tr (.waitMsOp (.int (wms.getD gw))) with
    | error e =>
      refine ⟨[.op (.waitMsOp (.int (wms.getD gw))) false], ?_, rfl⟩
      simp only [h1]
    | ok v =>
      simp only [h1]
      obtain ⟨evs, he, hp⟩ :=
        captureMetaStage_trace ω fp fullp (tr ++ [.op (.waitMsOp (.int (wms.getD gw))) true])
      refine ⟨[.op (.waitMsOp (.int (wms.getD gw))) true] ++ evs, ?_, all_append_of ?_ hp⟩
      · rw [he]
        simp
      · rfl
  · simp only [hw, if_false]
    exact captureMetaStage_trace ω fp fullp tr

theorem captureWaitStage_status (ω : Oracle) (fp : String) (wms : Option Int)
    (gw : Int) (fullp : Bool) (tr : List Ev) :
    (captureWaitStage ω fp wms gw fullp tr).1.status = "ok" ∨
    ∃ e, (captureWaitStage ω fp wms gw fullp tr).1 = classifyError e := by
  unfold captureWaitStage runOpE
  by_cases hw : wms.getD gw > 0
  · simp only [hw, if_true]
    cases h1 : ω tr (.waitMsOp (.int (wms.getD gw))) with
    | error e =>
      refine Or.inr ⟨e, ?_⟩
      simp only [h1]
    | ok v =>
      simp only [h1]
      exact captureMetaStage_status ω fp fullp _
  · simp only [hw, if_false]
    exact captureMetaStage_status ω fp fullp tr

theorem captureSelStage_trace (ω : Oracle) (fp : String) (wf gwf : Option String)
    (wms : Option Int) (gw : Int) (fullp : Bool) (tr : List Ev) :
    ∃ evs, (captureSelStage ω fp wf gwf wms gw fullp tr).2 = tr ++ evs ∧
      evs.all isPlainOpEv = true := by
  unfold captureSelStage runOpE
  cases hs : strTruthy (pyOrOptStr wf gwf) with
  | none =>
    simp only [hs]
    exact captureWaitStage_trace ω fp wms gw fullp tr
  | some sel =>
    simp only [hs]
    cases h1 : ω tr (.waitForOp (.str sel) (some 10000)) with
    | error e =>
      refine ⟨[.op (.waitForOp (.str sel) (some 10000)) false], ?_, rfl⟩
      simp only [h1]
    | ok v =>
      simp only [h1]
      obtain ⟨evs, he, hp⟩ :=
        captureWaitStage_trace ω fp wms gw fullp
          (tr ++ [.op (.waitForOp (.str sel) (some 10000)) true])
      refine ⟨[.op (.waitForOp (.str sel) (some 10000)) true] ++ evs, ?_,
        all_append_of ?_ hp⟩
      · rw [he]
        simp
      · rfl

theorem captureSelStage_status (ω : Oracle) (fp : String) (wf gwf : Option String)
    (wms : Option Int) (gw : Int) (fullp : Bool) (tr : List Ev) :
    (captureSelStage ω fp wf gwf wms gw fullp tr).1.status = "ok" ∨
    ∃ e, (captureSelStage ω fp wf gwf wms gw fullp tr).1 = classifyError e := by
  unfold captureSelStage runOpE
  cases hs : strTruthy (pyOrOptStr wf gwf) with
  | none =>
    simp only [hs]
    exact captureWaitStage_status ω fp wms gw fullp tr
  | some sel =>
    simp only [hs]
    cases h1 : ω tr (.waitForOp (.str sel) (some 10000)) with
    | error e =>
      refine Or.inr ⟨e, ?_⟩
      simp only [h1]
    | ok v =>
      simp only [h1]
      exact captureWaitStage_status ω fp wms gw fullp _

theorem plainOp_isOp {evs : List Ev} (hp : evs.all isPlainOpEv = true) :
    evs.all isOpEv = true := by
  rw [List.all_eq_true] at hp ⊢
  intro e hme
  have := hp e hme
  cases e with
  | op o b => rfl
  | newContext d => simp [isPlainOpEv] at this
  | closeContext d => simp [isPlainOpEv] at this
  | captureAttempt u d f => simp [isPlainOpEv] at this

theorem gotoStage_trace (ω : Oracle) (url fp : String) (wf gwf : Option String)
    (wms : Option Int) (gw : Int) (fullp : Bool) (tr : List Ev) :
    ∃ evs, (gotoStage ω url fp wf gwf wms gw fullp tr).2 = tr ++ evs ∧
      evs.all isOpEv = true := by
  unfold gotoStage runOpE
  cases h1 : ω tr (.goto (.str url)) with
  | error e =>
    refine ⟨[.op (.goto (.str url)) false], ?_, rfl⟩
    simp only [h1]
  | ok v =>
    simp only [h1]
    obtain ⟨evs, he, hp⟩ :=
      captureSelStage_trace ω fp wf gwf wms gw fullp (tr ++ [.op (.goto (.str url)) true])
    refine ⟨[.op (.goto (.str url)) true] ++ evs, ?_, all_append_of ?_ (plainOp_isOp hp)⟩
    · rw [he]
      simp
    · rfl

theorem gotoStage_status (ω : Oracle) (url fp : String) (wf gwf : Option String)
    (wms : Option Int) (gw : Int) (fullp : Bool) (tr : List Ev) :
    (gotoStage ω url fp wf gwf wms gw fullp tr).1.status = "ok" ∨
    ∃ e, (gotoStage ω url fp wf gwf wms gw fullp tr).1 = classifyError e := by
  unfold gotoStage runOpE
  cases h1 : ω tr (.goto (.str url)) with
  | error e =>
    refine Or.inr ⟨e, ?_⟩
    simp only [h1]
  | ok v =>
    simp only [h1]
    exact captureSelStage_status ω fp wf gwf wms gw fullp _

theorem capture_single_trace (ω : Oracle) (url filepath : String) (entry : Entry)
    (gw : Int) (gwf : Option String) (fp : Bool) (tr : List Ev) :
    ∃ evs, (capture_single ω url filepath entry gw gwf fp tr).2 = tr ++ evs ∧
      evs.all isOpEv = true := by
  unfold capture_single
  cases hd : entryData entry with
  | none =>
    simp only [hd]
    exact gotoStage_trace ω url filepath _ gwf _ gw fp tr
  | some pd =>
    simp only [hd]
    by_cases hif : (entryMethod entry == "POST" && pdTruthy (some pd)) = true
    · simp only [hif, if_true]
      unfold runOpE
      cases h1 : ω (tr ++ [.op (.route url (routeOverride pd (entryHeaders entry))) true])
          (.goto (.str url)) with
      | error e =>
        refine ⟨[.op (.route url (routeOverride pd (entryHeaders entry))) true,
                 .op (.goto (.str url)) false], ?_, rfl⟩
        simp only [h1]
        simp
      | ok v =>
        simp only [h1]
        obtain ⟨evs, he, hp⟩ :=
          captureSelStage_trace ω filepath (entryWaitFor entry) gwf (entryWaitMs entry)
            gw fp
            (((tr ++ [.op (.route url (routeOverride pd (entryHeaders entry))) true]) ++
              [.op (.goto (.str url)) true]) ++ [.op (.unroute url) true])
        refine ⟨[.op (.route url (routeOverride pd (entryHeaders entry))) true,
                 .op (.goto (.str url)) true, .op (.unroute url) true] ++ evs, ?_,
          all_append_of ?_ (plainOp_isOp hp)⟩
        · rw [he]
          simp
        · rfl
    · simp only [hif]
      simp only [Bool.false_eq_true, if_false]
      exact gotoStage_trace ω url filepath _ gwf _ gw fp tr

theorem capture_single_status (ω : Oracle) (url filepath : String) (entry : Entry)
    (gw : Int) (gwf : Option String) (fp : Bool) (tr : List Ev) :
    (capture_single ω url filepath entry gw gwf fp tr).1.status = "ok" ∨
    ∃ e, (capture_single ω url filepath entry gw gwf fp tr).1 = classifyError e := by
  unfold capture_single
  cases hd : entryData entry with
  | none =>
    simp only [hd]
    exact gotoStage_status ω url filepath _ gwf _ gw fp tr
  | some pd =>
    simp only [hd]
    by_cases hif : (entryMethod entry == "POST" && pdTruthy (some pd)) = true
    · simp only [hif, if_true]
      unfold runOpE
      cases h1 : ω (tr ++ [.op (.route url (routeOverride pd (entryHeaders entry))) true])
          (.goto (.str url)) with
      | error e =>
        refine Or.inr ⟨e, ?_⟩
        simp only [h1]
      | ok v =>
        simp only [h1]
        exact captureSelStage_status ω filepath _ gwf _ gw fp _
    · simp only [hif]
      simp only [Bool.false_eq_true, if_false]
      exact gotoStage_status ω url filepath _ gwf _ gw fp tr

/- ================================================================
   Lemmas: trace counters
   ================================================================ -/

theorem countNew_append (a b : List Ev) :
    countNewCtx (a ++ b) = countNewCtx a + countNewCtx b := by
  unfold countNewCtx
  rw [List.map_append, List.sum_append]

theorem countClose_append (a b : List Ev) :
    countCloseCtx (a ++ b) = countCloseCtx a + countCloseCtx b := by
  unfold countCloseCtx
  rw [List.map_append, List.sum_append]

theorem countRoute_append (a b : List Ev) :
    countRoute (a ++ b) = countRoute a + countRoute b := by
  unfold countRoute
  rw [List.map_append, List.sum_append]

theorem countUnroute_append (a b : List Ev) :
    countUnroute (a ++ b) = countUnroute a + countUnroute b := by
  unfold countUnroute
  rw [List.map_append, List.sum_append]

theorem ops_counts {evs : List Ev} (h : evs.all isOpEv = true) :
    countCapAttempts evs = 0 ∧ countNewCtx evs = 0 ∧ countCloseCtx evs = 0 := by
  induction evs with
  | nil => exact ⟨rfl, rfl, rfl⟩
  | cons e rest ih =>
    simp only [List.all_cons, Bool.and_eq_true] at h
    obtain ⟨ha, hb, hc⟩ := ih h.2
    cases e with
    | op o b =>
      refine ⟨?_, ?_, ?_⟩ <;>
        simp [countCapAttempts, countNewCtx, countCloseCtx, evCapCount,
          evNewCtxCount, evCloseCtxCount, ha, hb, hc] <;>
        simp [countCapAttempts, countNewCtx, countCloseCtx] at ha hb hc <;>
        assumption
    | newContext d => simp [isOpEv] at h
    | closeContext d => simp [isOpEv] at h
    | captureAttempt u d f => simp [isOpEv] at h

theorem counts_ext {evs : List Ev} (tr : List Ev) (h : evs.all isOpEv = true) :
    countCapAttempts (tr ++ evs) = countCapAttempts tr ∧
    countNewCtx (tr ++ evs) = countNewCtx tr ∧
    countCloseCtx (tr ++ evs) = countCloseCtx tr := by
  obtain ⟨a, b, c⟩ := ops_counts h
  rw [countCap_append, countNew_append, countClose_append, a, b, c]
  omega

theorem authSteps_trace (ω : Oracle) (steps : List StepDict) :
    ∀ tr : List Ev, ∃ evs, (authSteps ω steps tr).2 = tr ++ evs ∧
      evs.all isOpEv = true := by
  induction steps with
  | nil => intro tr; exact ⟨[], by simp [authSteps], rfl⟩
  | cons s ss ih =>
    intro tr
    rw [authSteps_cons]
    cases ho : stepOp s with
    | none => exact ih tr
    | some o =>
      unfold runOpE
      cases hw : ω tr o with
      | error e =>
        refine ⟨[.op o false], ?_, rfl⟩
        simp only [hw]
      | ok v =>
        simp only [hw]
        obtain ⟨evs, he, hp⟩ := ih (tr ++ [.op o true])
        refine ⟨[.op o true] ++ evs, ?_, all_append_of ?_ hp⟩
        · rw [he]
          simp
        · rfl

theorem perform_auth_trace (ω : Oracle) (ac : AuthConfig) (tr : List Ev) :
    ∃ evs, (perform_auth ω ac tr).2 = tr ++ evs ∧ evs.all isOpEv = true := by
  unfold perform_auth
  cases hs : strTruthy ac.url with
  | none => exact ⟨[], by simp, rfl⟩
  | some u =>
    try simp only [hs]
    unfold runOpE
    cases h1 : ω tr (.goto (.str u)) with
    | error e =>
      refine ⟨[.op (.goto (.str u)) false], ?_, rfl⟩
      simp only [h1]
    | ok v =>
      simp only [h1]
      obtain ⟨evs, he, hp⟩ := authSteps_trace ω ac.steps (tr ++ [.op (.goto (.str u)) true])
      refine ⟨[.op (.goto (.str u)) true] ++ evs, ?_, all_append_of ?_ hp⟩
      · show (authSteps ω ac.steps (tr ++ [.op (.goto (.str u)) true])).2 =
          tr ++ ([.op (.goto (.str u)) true] ++ evs)
        rw [he]
        simp
      · rfl

theorem attemptCapture_out (ω : Oracle) (pyh : List Char → Int) (g : GlobalCfg)
    (entry : Entry) (url : String) (name descr : Option String) (rauth : Bool)
    (dev suffix : String) (acc : List ResultEntry) (tr : List Ev) :
    ∃ re : ResultEntry,
      (attemptCapture ω pyh g entry url name descr rauth dev suffix acc tr).1 =
        acc ++ [re] ∧
      re.filename = (pyOrStr name (sanitize_filename pyh url) ++ suffix) ++ ".png" ∧
      countCapAttempts (attemptCapture ω pyh g entry url name descr rauth dev suffix acc tr).2 =
        countCapAttempts tr + 1 ∧
      countNewCtx (attemptCapture ω pyh g entry url name descr rauth dev suffix acc tr).2 =
        countNewCtx tr ∧
      countCloseCtx (attemptCapture ω pyh g entry url name descr rauth dev suffix acc tr).2 =
        countCloseCtx tr := by
  obtain ⟨evs, he, hp⟩ := capture_single_trace ω url
    (g.output_dir ++ "/" ++ (pyOrStr name (sanitize_filename pyh url) ++ suffix) ++ ".png")
    entry g.global_wait g.global_wait_for g.full_page
    (tr ++ [.captureAttempt url dev ((pyOrStr name (sanitize_filename pyh url) ++ suffix) ++ ".png")])
  have h2 : (attemptCapture ω pyh g entry url name descr rauth dev suffix acc tr).2 =
      (tr ++ [.captureAttempt url dev
        ((pyOrStr name (sanitize_filename pyh url) ++ suffix) ++ ".png")]) ++ evs := he
  obtain ⟨c1, c2, c3⟩ := counts_ext
    (tr ++ [.captureAttempt url dev ((pyOrStr name (sanitize_filename pyh url) ++ suffix) ++ ".png")]) hp
  refine ⟨_, rfl, rfl, ?_, ?_, ?_⟩ <;>
    rw [h2] <;>
    [rw [c1, countCap_append]; rw [c2, countNew_append]; rw [c3, countClose_append]] <;>
    simp [countCapAttempts, countNewCtx, countCloseCtx, evCapCount, evNewCtxCount,
      evCloseCtxCount]

theorem countCap_single (e : Ev) : countCapAttempts [e] = evCapCount e := by
  simp [countCapAttempts]

theorem countNew_single (e : Ev) : countNewCtx [e] = evNewCtxCount e := by
  simp [countNewCtx]

theorem countClose_single (e : Ev) : countCloseCtx [e] = evCloseCtxCount e := by
  simp [countCloseCtx]

theorem capturePair_counts (ω : Oracle) (pyh : List Char → Int) (g : GlobalCfg)
    (entry : Entry) (url : String) (name descr : Option String) (rauth : Bool)
    (dev : String) (acc : List ResultEntry) (tr : List Ev) :
    (capturePair ω pyh g entry url name descr rauth dev acc tr).1.length +
        countCapAttempts tr =
      acc.length + countCapAttempts (capturePair ω pyh g entry url name descr rauth dev acc tr).2 ∧
    countNewCtx (capturePair ω pyh g entry url name descr rauth dev acc tr).2 +
        countCloseCtx tr =
      countNewCtx tr + countCloseCtx (capturePair ω pyh g entry url name descr rauth dev acc tr).2 := by
  unfold capturePair
  by_cases hdev : (dev == "default") = true
  · simp only [hdev, if_true]
    obtain ⟨re, h1, _, hc, hn, hcl⟩ :=
      attemptCapture_out ω pyh g entry url name descr rauth dev "" acc tr
    rw [h1, hc, hn, hcl]
    refine ⟨?_, rfl⟩
    simp only [List.length_append, List.length_singleton]
    omega
  · simp only [hdev]
    simp only [Bool.false_eq_true, if_false]
    cases hlk : List.lookup dev DEVICES with
    | none => simp
    | some dc =>
      try simp only [hlk]
      obtain ⟨re, h1, _, hc, hn, hcl⟩ :=
        attemptCapture_out ω pyh g entry url name descr rauth dev ("-" ++ dev) acc
          (tr ++ [.newContext dev])
      have hdevf : (dev == "default") = false := by
        rw [Bool.not_eq_true] at hdev
        exact hdev
      simp only [h1, countCap_append, countNew_append, countClose_append, hc, hn, hcl,
        countCap_single, countNew_single, countClose_single, List.length_append,
        List.length_singleton, evCapCount, evNewCtxCount, evCloseCtxCount, hdevf,
        Bool.false_eq_true, if_false]
      omega

theorem devicesLoop_counts (ω : Oracle) (pyh : List Char → Int) (g : GlobalCfg)
    (entry : Entry) (url : String) (name descr : Option String) (rauth : Bool)
    (devs : List String) :
    ∀ (acc : List ResultEntry) (tr : List Ev),
    (devicesLoop ω pyh g entry url name descr rauth devs acc tr).1.length +
        countCapAttempts tr =
      acc.length +
        countCapAttempts (devicesLoop ω pyh g entry url name descr rauth devs acc tr).2 ∧
    countNewCtx (devicesLoop ω pyh g entry url name descr rauth devs acc tr).2 +
        countCloseCtx tr =
      countNewCtx tr +
        countCloseCtx (devicesLoop ω pyh g entry url name descr rauth devs acc tr).2 := by
  induction devs with
  | nil => intro acc tr; simp [devicesLoop]
  | cons d ds ih =>
    intro acc tr
    simp only [devicesLoop]
    obtain ⟨p1, p2⟩ := capturePair_counts ω pyh g entry url name descr rauth d acc tr
    obtain ⟨q1, q2⟩ := ih (capturePair ω pyh g entry url name descr rauth d acc tr).1
      (capturePair ω pyh g entry url name descr rauth d acc tr).2
    omega

theorem urlsLoop_counts (ω : Oracle) (pyh : List Char → Int) (g : GlobalCfg)
    (es : List Entry) :
    ∀ (acc : List ResultEntry) (tr : List Ev),
    (urlsLoop ω pyh g es acc tr).1.length + countCapAttempts tr =
      acc.length + countCapAttempts (urlsLoop ω pyh g es acc tr).2 ∧
    countNewCtx (urlsLoop ω pyh g es acc tr).2 + countCloseCtx tr =
      countNewCtx tr + countCloseCtx (urlsLoop ω pyh g es acc tr).2 := by
  induction es with
  | nil => intro acc tr; simp [urlsLoop]
  | cons e es ih =>
    intro acc tr
    simp only [urlsLoop]
    split
    · exact ih acc tr
    · rename_i url hs
      obtain ⟨p1, p2⟩ := devicesLoop_counts ω pyh g e url (entryName e)
        (entryDescription e) (entryAuth e) (deviceListOf e) acc tr
      obtain ⟨q1, q2⟩ := ih
        (devicesLoop ω pyh g e url (entryName e) (entryDescription e) (entryAuth e)
          (deviceListOf e) acc tr).1
        (devicesLoop ω pyh g e url (entryName e) (entryDescription e) (entryAuth e)
          (deviceListOf e) acc tr).2
      omega

theorem capture_ok_counts (ω : Oracle) (pyh : List Char → Int) (config : Config)
    (g : GlobalCfg) (rs : List ResultEntry) (tr : List Ev)
    (h : capture_screenshots ω pyh config g = (.ok rs, tr)) :
    rs.length = countCapAttempts tr ∧ countNewCtx tr = countCloseCtx tr := by
  unfold capture_screenshots at h
  split at h
  · simp at h
  · by_cases hna : (config.urls.any entryAuth) = true
    · simp only [hna, if_true] at h
      split at h
      · simp at h
      · rename_i ac heqa
        split at h
        · simp at h
        · simp at h
        · rename_i tr1 heq
          simp only [Prod.mk.injEq, Except.ok.injEq] at h
          obtain ⟨h1, h2⟩ := h
          obtain ⟨evs, he, hp⟩ := perform_auth_trace ω ac [Ev.newContext "default"]
          rw [heq] at he
          have he2 : tr1 = [Ev.newContext "default"] ++ evs := he
          obtain ⟨c1, c2, c3⟩ := counts_ext [Ev.newContext "default"] hp
          have e1 : countCapAttempts tr1 = 0 := by
            rw [he2, c1]; rfl
          have e2 : countNewCtx tr1 = 0 := by
            rw [he2, c2]; rfl
          have e3 : countCloseCtx tr1 = 0 := by
            rw [he2, c3]; rfl
          obtain ⟨q1, q2⟩ := urlsLoop_counts ω pyh g config.urls [] tr1
          rw [h1, h2] at q1
          rw [h2] at q2
          simp only [List.length_nil] at q1
          omega
    · have hnaf : config.urls.any entryAuth = false := by
        rw [Bool.not_eq_true] at hna
        exact hna
      simp only [hnaf, Bool.false_eq_true, if_false] at h
      simp only [Prod.mk.injEq, Except.ok.injEq] at h
      obtain ⟨h1, h2⟩ := h
      obtain ⟨q1, q2⟩ := urlsLoop_counts ω pyh g config.urls [] [Ev.newContext "default"]
      rw [h1, h2] at q1
      rw [h2] at q2
      have e1 : countCapAttempts [Ev.newContext "default"] = 0 := rfl
      have e2 : countNewCtx [Ev.newContext "default"] = 0 := rfl
      have e3 : countCloseCtx [Ev.newContext "default"] = 0 := rfl
      simp only [List.length_nil] at q1
      omega

/- ================================================================
   Claim theorems: capture engine containment (C10)
   ================================================================ -/

/-- Claim C10: `capture_single` never propagates an exception: every attempted
(target, device) pair yields a result whose status is ok, timeout,
network_error or error; on the exception path the result is exactly the
classification of the thrown message (which is recorded in the `error`
field); and on every completed run the number of manifest records equals the
number of capture attempts while every device context opened by the loop is
closed again (lines 124-179 and 279-307). -/
theorem capture_errors_contained :
    (∀ (ω : Oracle) (url filepath : String) (entry : Entry) (gw : Int)
       (gwf : Option String) (fp : Bool) (tr : List Ev),
       (capture_single ω url filepath entry gw gwf fp tr).1.status ∈
         (["ok", "timeout", "network_error", "error"] : List String) ∧
       ((capture_single ω url filepath entry gw gwf fp tr).1.status ≠ "ok" →
         ∃ e, (capture_single ω url filepath entry gw gwf fp tr).1 = classifyError e ∧
           (capture_single ω url filepath entry gw gwf fp tr).1.error = some e ∧
           (capture_single ω url filepath entry gw gwf fp tr).1.status ∈
             (["timeout", "network_error", "error"] : List String))) ∧
    (∀ (ω : Oracle) (pyh : List Char → Int) (config : Config) (g : GlobalCfg)
       (rs : List ResultEntry) (tr : List Ev),
       capture_screenshots ω pyh config g = (.ok rs, tr) →
       rs.length = countCapAttempts tr ∧ countNewCtx tr = countCloseCtx tr) := by
  constructor
  · intro ω url filepath entry gw gwf fp tr
    rcases capture_single_status ω url filepath entry gw gwf fp tr with hok | ⟨e, he⟩
    · constructor
      · rw [hok]; simp
      · intro hne; exact absurd hok hne
    · obtain ⟨hf, hm⟩ := classifyError_fields e
      constructor
      · rw [he]
        simp only [List.mem_cons] at hm ⊢
        tauto
      · intro _
        exact ⟨e, he, by rw [he]; exact hf, by rw [he]; exact hm⟩
  · exact capture_ok_counts

/-- Witness for `capture_errors_contained`: a timeout during the selector wait
is classified as status "timeout", and a concrete completed two-target run has
as many manifest records as capture attempts with balanced contexts. -/
theorem capture_errors_contained_witness :
    ((capture_single selTimeoutOracle "https://e.example/" "s.png"
        (.plain "https://e.example/") 0 (some "#app") false []).1.status ∈
      (["ok", "timeout", "network_error", "error"] : List String)) ∧
    capture_screenshots allOkOracle (fun _ => 0) twoUrlConfig demoGlobal =
      (.ok (runResults allOkOracle (fun _ => 0) twoUrlConfig demoGlobal),
       (capture_screenshots allOkOracle (fun _ => 0) twoUrlConfig demoGlobal).2) ∧
    (runResults allOkOracle (fun _ => 0) twoUrlConfig demoGlobal).length =
      countCapAttempts (capture_screenshots allOkOracle (fun _ => 0) twoUrlConfig demoGlobal).2 ∧
    countNewCtx (capture_screenshots allOkOracle (fun _ => 0) twoUrlConfig demoGlobal).2 =
      countCloseCtx (capture_screenshots allOkOracle (fun _ => 0) twoUrlConfig demoGlobal).2 :=
  ⟨(capture_errors_contained.1 selTimeoutOracle "https://e.example/" "s.png"
      (.plain "https://e.example/") 0 (some "#app") false []).1,
   rfl,
   capture_errors_contained.2 allOkOracle (fun _ => 0) twoUrlConfig demoGlobal
     (runResults allOkOracle (fun _ => 0) twoUrlConfig demoGlobal)
     (capture_screenshots allOkOracle (fun _ => 0) twoUrlConfig demoGlobal).2 rfl⟩

/- ================================================================
   Claim theorems: POST request interception (C6)
   ================================================================ -/

/-- Claim C6 as stated is falsified when the navigation itself throws: the
source has no `finally`, so `page.unroute` is skipped and the interception
rule stays registered (one route event, zero unroute events). -/
theorem claimC6_counterexample :
    ¬ claimC6Prop gotoFailOracle "https://api.example/x" "./screenshots/x.png"
        demoPostEntry 0 none false := by
  intro H
  have h := H (by decide) (.pstr "a=1&b=2") rfl
  exact absurd h.2.2 (by decide)

/-- Claim C6 amended: for a POST target with a truthy body the capture
registers exactly one interception scoped to the target URL, carrying the
override with method "POST", the (JSON-encoded when structured) body and the
merged headers, then navigates; if the navigation succeeds the interception
is removed immediately afterwards and no further interception operation
occurs; if the navigation throws, the capture returns the classified error
with the route still registered (no unroute event). -/
theorem post_route_scoped_amended (ω : Oracle) (url filepath : String)
    (entry : Entry) (gw : Int) (gwf : Option String) (fp : Bool) (tr : List Ev)
    (pd : PostData)
    (hm : entryMethod entry = "POST")
    (hd : entryData entry = some pd)
    (hpd : pdTruthy (some pd) = true) :
    (∀ e, ω (tr ++ [Ev.op (.route url (routeOverride pd (entryHeaders entry))) true])
        (.goto (.str url)) = .error e →
      capture_single ω url filepath entry gw gwf fp tr =
        (classifyError e,
         (tr ++ [Ev.op (.route url (routeOverride pd (entryHeaders entry))) true]) ++
           [Ev.op (.goto (.str url)) false]) ∧
      countRoute ((tr ++ [Ev.op (.route url (routeOverride pd (entryHeaders entry))) true]) ++
          [Ev.op (.goto (.str url)) false]) = countRoute tr + 1 ∧
      countUnroute ((tr ++ [Ev.op (.route url (routeOverride pd (entryHeaders entry))) true]) ++
          [Ev.op (.goto (.str url)) false]) = countUnroute tr) ∧
    (∀ v, ω (tr ++ [Ev.op (.route url (routeOverride pd (entryHeaders entry))) true])
        (.goto (.str url)) = .ok v →
      ∃ evs, (capture_single ω url filepath entry gw gwf fp tr).2 =
          ((tr ++ [Ev.op (.route url (routeOverride pd (entryHeaders entry))) true]) ++
            [Ev.op (.goto (.str url)) true]) ++
            ([Ev.op (.unroute url) true] ++ evs) ∧
        evs.all isPlainOpEv = true) := by
  have hif : (entryMethod entry == "POST" && pdTruthy (some pd)) = true := by
    rw [hm, hpd]
    rfl
  constructor
  · intro e hω
    refine ⟨?_, ?_, ?_⟩
    · unfold capture_single
      simp only [hd, hif, if_true]
      unfold runOpE
      simp only [hω]
    · rw [countRoute_append, countRoute_append]
      simp [countRoute, evRouteCount]
    · rw [countUnroute_append, countUnroute_append]
      simp [countUnroute, evUnrouteCount]
  · intro v hω
    obtain ⟨evs, he, hp⟩ := captureSelStage_trace ω filepath (entryWaitFor entry) gwf
      (entryWaitMs entry) gw fp
      (((tr ++ [Ev.op (.route url (routeOverride pd (entryHeaders entry))) true]) ++
        [Ev.op (.goto (.str url)) true]) ++ [Ev.op (.unroute url) true])
    refine ⟨evs, ?_, hp⟩
    have hcs : (capture_single ω url filepath entry gw gwf fp tr).2 =
        (captureSelStage ω filepath (entryWaitFor entry) gwf (entryWaitMs entry) gw fp
          (((tr ++ [Ev.op (.route url (routeOverride pd (entryHeaders entry))) true]) ++
            [Ev.op (.goto (.str url)) true]) ++ [Ev.op (.unroute url) true])).2 := by
      unfold capture_single
      simp only [hd, hif, if_true]
      unfold runOpE
      simp only [hω]
    rw [hcs, he]
    simp

/-- Witness for `post_route_scoped_amended`: the demo POST entry under the
all-success environment: registered, navigated, unrouted, nothing more. -/
theorem post_route_scoped_amended_witness :
    entryMethod demoPostEntry = "POST" ∧
    ((∀ e, allOkOracle ([] ++ [Ev.op (.route "https://api.example/x"
          (routeOverride (.pstr "a=1&b=2") (entryHeaders demoPostEntry))) true])
        (.goto (.str "https://api.example/x")) = .error e →
      capture_single allOkOracle "https://api.example/x" "./screenshots/x.png"
          demoPostEntry 0 none false [] =
        (classifyError e,
         ([] ++ [Ev.op (.route "https://api.example/x"
            (routeOverride (.pstr "a=1&b=2") (entryHeaders demoPostEntry))) true]) ++
           [Ev.op (.goto (.str "https://api.example/x")) false]) ∧
      countRoute (([] ++ [Ev.op (.route "https://api.example/x"
          (routeOverride (.pstr "a=1&b=2") (entryHeaders demoPostEntry))) true]) ++
          [Ev.op (.goto (.str "https://api.example/x")) false]) = countRoute [] + 1 ∧
      countUnroute (([] ++ [Ev.op (.route "https://api.example/x"
          (routeOverride (.pstr "a=1&b=2") (entryHeaders demoPostEntry))) true]) ++
          [Ev.op (.goto (.str "https://api.example/x")) false]) = countUnroute []) ∧
    (∀ v, allOkOracle ([] ++ [Ev.op (.route "https://api.example/x"
          (routeOverride (.pstr "a=1&b=2") (entryHeaders demoPostEntry))) true])
        (.goto (.str "https://api.example/x")) = .ok v →
      ∃ evs, (capture_single allOkOracle "https://api.example/x" "./screenshots/x.png"
          demoPostEntry 0 none false []).2 =
          (([] ++ [Ev.op (.route "https://api.example/x"
            (routeOverride (.pstr "a=1&b=2") (entryHeaders demoPostEntry))) true]) ++
            [Ev.op (.goto (.str "https://api.example/x")) true]) ++
            ([Ev.op (.unroute "https://api.example/x") true] ++ evs) ∧
        evs.all isPlainOpEv = true)) :=
  ⟨rfl,
   post_route_scoped_amended allOkOracle "https://api.example/x" "./screenshots/x.png"
     demoPostEntry 0 none false [] (.pstr "a=1&b=2") rfl rfl rfl⟩

/- ================================================================
   Claim theorems: filename uniqueness (C4)
   ================================================================ -/

theorem strTruthy_getD {o : Option String} {u : String}
    (h : strTruthy o = some u) : o.getD "" = u := by
  cases o with
  | none => simp [strTruthy] at h
  | some s =>
    unfold strTruthy at h
    have h2 : (if (s == "") = true then none else (some s : Option String)) = some u := h
    by_cases hs : (s == "") = true
    · simp only [hs, if_true] at h2
      exact absurd h2 (by simp)
    · simp only [hs, Bool.false_eq_true, if_false, Option.some.injEq] at h2
      rw [← h2]
      rfl

theorem append_png_inj : Function.Injective (fun s : String => s ++ ".png") := by
  intro a b h
  have h1 : a ++ ".png" = b ++ ".png" := h
  have hd : (a ++ ".png").data = (b ++ ".png").data := congrArg String.data h1
  rw [String.data_append, String.data_append] at hd
  have h3 := List.append_cancel_right hd
  cases a
  cases b
  exact congrArg String.mk h3

theorem urlsLoop_default_names (ω : Oracle) (pyh : List Char → Int) (g : GlobalCfg) :
    ∀ es : List Entry,
    (∀ e ∈ es, (strTruthy (entryUrl e)).isSome = true) →
    (∀ e ∈ es, deviceListOf e = ["default"]) →
    ∀ (acc : List ResultEntry) (tr : List Ev),
    (urlsLoop ω pyh g es acc tr).1.map (fun r => r.filename) =
      acc.map (fun r => r.filename) ++ es.map (fun e => entryBase pyh e ++ ".png") ∧
    (urlsLoop ω pyh g es acc tr).1.length = acc.length + es.length := by
  intro es
  induction es with
  | nil => intro _ _ acc tr; simp [urlsLoop]
  | cons e es ih =>
    intro hurl hdev acc tr
    simp only [urlsLoop]
    split
    · rename_i hs
      exfalso
      have := hurl e (by simp)
      rw [hs] at this
      simp at this
    · rename_i url hs
      have hdl : deviceListOf e = ["default"] := hdev e (by simp)
      rw [hdl]
      obtain ⟨re, h1, hfn, _, _, _⟩ := attemptCapture_out ω pyh g e url (entryName e)
        (entryDescription e) (entryAuth e) "default" "" acc tr
      have hX1 : (devicesLoop ω pyh g e url (entryName e) (entryDescription e)
          (entryAuth e) ["default"] acc tr).1 = acc ++ [re] := h1
      obtain ⟨ih1, ih2⟩ := ih (fun x hx => hurl x (by simp [hx]))
        (fun x hx => hdev x (by simp [hx]))
        (devicesLoop ω pyh g e url (entryName e) (entryDescription e)
          (entryAuth e) ["default"] acc tr).1
        (devicesLoop ω pyh g e url (entryName e) (entryDescription e)
          (entryAuth e) ["default"] acc tr).2
      rw [ih1, ih2, hX1]
      have heu : (entryUrl e).getD "" = url := strTruthy_getD hs
      have hre : re.filename = entryBase pyh e ++ ".png" := by
        rw [hfn]
        unfold entryBase
        rw [heu]
        simp
      constructor
      · rw [List.map_append]
        simp [hre]
      · simp
        omega

/-- Claim C4 as stated is falsified by listing the same URL twice: the run
completes with two records carrying the same filename "example-com.png"
(lines 267-269 derive the name only from the entry, with no collision
detection). -/
theorem duplicate_urls_collide :
    (capture_screenshots allOkOracle (fun _ => 0) dupUrlConfig demoGlobal).1 =
      .ok (runResults allOkOracle (fun _ => 0) dupUrlConfig demoGlobal) ∧
    (runResults allOkOracle (fun _ => 0) dupUrlConfig demoGlobal).map
        (fun r => r.filename) = ["example-com.png", "example-com.png"] ∧
    ¬ ((runResults allOkOracle (fun _ => 0) dupUrlConfig demoGlobal).map
        (fun r => r.filename)).Nodup := by
  refine ⟨rfl, by decide, by decide⟩

/-- Claim C4 amended: in a run over single-device targets (every entry has a
truthy url, no devices list, no auth), the manifest holds exactly one record
per target, and the filenames are pairwise distinct provided the per-target
base names (explicit name, or sanitized URL) are pairwise distinct —
a proviso the code does not otherwise enforce. -/
theorem filenames_unique_amended (ω : Oracle) (pyh : List Char → Int)
    (config : Config) (g : GlobalCfg)
    (hne : config.urls ≠ [])
    (hurl : ∀ e ∈ config.urls, (strTruthy (entryUrl e)).isSome = true)
    (hdev : ∀ e ∈ config.urls, deviceListOf e = ["default"])
    (hna : config.urls.any entryAuth = false)
    (hnodup : (config.urls.map (entryBase pyh)).Nodup) :
    capture_screenshots ω pyh config g =
      (.ok (runResults ω pyh config g), (capture_screenshots ω pyh config g).2) ∧
    (runResults ω pyh config g).length = config.urls.length ∧
    (runResults ω pyh config g).map (fun r => r.filename) =
      config.urls.map (fun e => entryBase pyh e ++ ".png") ∧
    ((runResults ω pyh config g).map (fun r => r.filename)).Nodup := by
  have hcap : capture_screenshots ω pyh config g =
      (.ok (urlsLoop ω pyh g config.urls [] [Ev.newContext "default"]).1,
       (urlsLoop ω pyh g config.urls [] [Ev.newContext "default"]).2) := by
    unfold capture_screenshots
    split
    · rename_i hnil
      exact absurd hnil hne
    · simp only [hna, Bool.false_eq_true, if_false]
  have hrr : runResults ω pyh config g =
      (urlsLoop ω pyh g config.urls [] [Ev.newContext "default"]).1 := by
    unfold runResults
    rw [hcap]
  obtain ⟨hn1, hn2⟩ := urlsLoop_default_names ω pyh g config.urls hurl hdev []
    [Ev.newContext "default"]
  refine ⟨?_, ?_, ?_, ?_⟩
  · rw [hcap, hrr]
  · rw [hrr, hn2]
    simp
  · rw [hrr, hn1]
    simp
  · rw [hrr, hn1]
    simp only [List.map_nil, List.nil_append]
    have hmm : config.urls.map (fun e => entryBase pyh e ++ ".png") =
        (config.urls.map (entryBase pyh)).map (fun s => s ++ ".png") := by
      rw [List.map_map]
      rfl
    rw [hmm]
    exact hnodup.map append_png_inj

/-- Witness for `filenames_unique_amended`: two distinct plain URLs give two
records with distinct filenames. -/
theorem filenames_unique_amended_witness :
    capture_screenshots allOkOracle (fun _ => 0) twoUrlConfig demoGlobal =
      (.ok (runResults allOkOracle (fun _ => 0) twoUrlConfig demoGlobal),
       (capture_screenshots allOkOracle (fun _ => 0) twoUrlConfig demoGlobal).2) ∧
    (runResults allOkOracle (fun _ => 0) twoUrlConfig demoGlobal).length =
      twoUrlConfig.urls.length ∧
    (runResults allOkOracle (fun _ => 0) twoUrlConfig demoGlobal).map
        (fun r => r.filename) =
      twoUrlConfig.urls.map (fun e => entryBase (fun _ => 0) e ++ ".png") ∧
    ((runResults allOkOracle (fun _ => 0) twoUrlConfig demoGlobal).map
        (fun r => r.filename)).Nodup :=
  filenames_unique_amended allOkOracle (fun _ => 0) twoUrlConfig demoGlobal
    (by decide) (by decide) (by decide) (by decide) (by decide)

/- ================================================================
   Claim theorems: configuration error handling (C3)
   ================================================================ -/

/-- Claim C3, evaluated on the code: an invalid viewport string and a missing
config file exit with code 2 and no output, but an unreadable or unparsable
config file raises an uncaught exception out of `load_config` (line 492 has
no try/except), so the interpreter terminates with a traceback (exit status
1), not with exit code 2 as the spec's ConfigError taxonomy requires. -/
theorem config_error_paths (ω : Oracle) (pyh : List Char → Int) :
    (∀ (w : World) (a : Args), parseViewport a.viewport = none →
      main_model ω pyh w a = (.exited 2, [])) ∧
    (∀ (w : World) (a : Args) (vp : Int × Int), parseViewport a.viewport = some vp →
      w.configExists = false →
      main_model ω pyh w a = (.exited 2, [])) ∧
    (∀ (w : World) (a : Args) (vp : Int × Int) (e : String),
      parseViewport a.viewport = some vp →
      w.configExists = true →
      w.loadConfig = .error e →
      main_model ω pyh w a = (.raised e, [])) := by
  refine ⟨?_, ?_, ?_⟩
  · intro w a hvp
    unfold main_model
    rw [hvp]
  · intro w a vp hvp hce
    unfold main_model
    rw [hvp, hce]
    simp
  · intro w a vp e hvp hce hlc
    unfold main_model
    rw [hvp, hce, hlc]
    simp

/-- Witness for `config_error_paths`: a malformed viewport, a missing file,
and a config whose YAML parse raises. -/
theorem config_error_paths_witness :
    main_model allOkOracle (fun _ => 0)
      (worldWith dupUrlConfig) { config := "urls.yaml", viewport := "fullhd" } =
      (.exited 2, []) ∧
    main_model allOkOracle (fun _ => 0)
      { configExists := false, loadConfig := .ok dupUrlConfig } demoArgs =
      (.exited 2, []) ∧
    main_model allOkOracle (fun _ => 0)
      { configExists := true,
        loadConfig := .error "yaml.scanner.ScannerError: mapping values are not allowed here" }
      demoArgs =
      (.raised "yaml.scanner.ScannerError: mapping values are not allowed here", []) :=
  ⟨(config_error_paths allOkOracle (fun _ => 0)).1 _ _ (by decide),
   (config_error_paths allOkOracle (fun _ => 0)).2.1 _ _ (1280, 720) (by decide) rfl,
   (config_error_paths allOkOracle (fun _ => 0)).2.2 _ _ (1280, 720) _ (by decide) rfl rfl⟩
